import Mathlib

/-!
Verification of the memory-state reconstruction core (symbol resolver,
page model, slab-allocator model, zone free-list checker) against its
natural-language specification.  The definitions below are shallow
embeddings of the corresponding functions of the source tree
(crash/types/kallsyms.py, page.py, slab.py, zone.py); machine integers
are modelled as Nat or Int, structured diagnostics replace printed
messages, and the external memory-access boundary is passed in
explicitly as data.  Loops are written as structural recursions over an
explicit iteration bound that provably dominates the number of
iterations of the source loop, so every definition evaluates on
concrete inputs.
-/

namespace CrashPython

/-! ## Symbol resolver (crash/types/kallsyms.py)

Kallsyms._get_symbol_pos binary-searches the table of symbol start
addresses for the greatest entry at or below the queried address,
slides left over runs of duplicate addresses, and computes the offset
and size.  The address table (_sym_address applied to each index) is
modelled as a list of naturals; kallsyms_num_syms is its length. -/

/-- The binary-search loop of Kallsyms._get_symbol_pos: while
high - low > 1, probe mid = low + (high - low) / 2 and keep the half
whose entry is at or below addr.  The bracket shrinks by at least one
entry per iteration, so high - low iterations always suffice. -/
def bsearchGo (addrs : List Nat) (addr : Nat) : Nat → Nat → Nat → Nat
  | 0, low, _ => low
  | fuel + 1, low, high =>
    if high - low > 1 then
      if addrs.getD (low + (high - low) / 2) 0 ≤ addr then
        bsearchGo addrs addr fuel (low + (high - low) / 2) high
      else
        bsearchGo addrs addr fuel low (low + (high - low) / 2)
    else low

/-- The binary search of Kallsyms._get_symbol_pos over the bracket
[low, high). -/
def bsearchLoop (addrs : List Nat) (addr : Nat) (low high : Nat) : Nat :=
  bsearchGo addrs addr (high - low) low high

/-- The slide-left loop of Kallsyms._get_symbol_pos: while low is
nonzero and the entry before low holds the same address, decrement
low, landing on the first entry of a run of duplicate addresses. -/
def slideLeft (addrs : List Nat) : Nat → Nat
  | 0 => 0
  | n + 1 =>
    if addrs.getD n 0 = addrs.getD (n + 1) 0 then slideLeft addrs n
    else n + 1

/-- The symbol-end scan of Kallsyms._get_symbol_pos, iterated on the
remaining table length. -/
def symbolEndGo (addrs : List Nat) (symbolStart : Nat) : Nat → Nat → Option Nat
  | 0, _ => none
  | fuel + 1, i =>
    if i < addrs.length then
      if symbolStart < addrs.getD i 0 then some (addrs.getD i 0)
      else symbolEndGo addrs symbolStart fuel (i + 1)
    else none

/-- The symbol-end scan of Kallsyms._get_symbol_pos: the first entry at
or after position i whose address is strictly greater than symbolStart,
if any. -/
def symbolEndSearch (addrs : List Nat) (symbolStart : Nat) (i : Nat) : Option Nat :=
  symbolEndGo addrs symbolStart (addrs.length - i) i

/-- Result of Kallsyms._get_symbol_pos: the table position, the offset
of the queried address from the symbol start, the symbol size, and
whether the size was faked (the "symbol_end failed, faking it" warning
path, which substitutes the queried address for the missing end). -/
structure SymbolPos where
  pos : Nat
  offset : Nat
  size : Nat
  faked : Bool
  deriving Repr, DecidableEq

/-- Kallsyms._get_symbol_pos: binary search, slide left, then scan for
the next distinct address to derive the size; when no entry above the
match holds a greater address, symbol_end falls back to the queried
address itself and the result is flagged as faked. -/
def getSymbolPos (addrs : List Nat) (addr : Nat) : SymbolPos :=
  let low := bsearchLoop addrs addr 0 addrs.length
  let low := slideLeft addrs low
  let symbolStart := addrs.getD low 0
  match symbolEndSearch addrs symbolStart (low + 1) with
  | some symbolEnd => ⟨low, addr - symbolStart, symbolEnd - symbolStart, false⟩
  | none => ⟨low, addr - symbolStart, addr - symbolStart, true⟩

/-! ## Page model (crash/types/page.py)

A struct page is identified by its descriptor address; the memory image
provides its fields at any such address.  The x86 sparsemem-vmemmap
configuration is modelled: vmemmap is a flat virtual array of struct
page, so the descriptor of pfn k lives at vmemmap_base + k * sizeof.
Addresses are Int so that the Python floor divisions and the negative
pfn guard of Page.from_obj keep their exact semantics. -/

/-- Fields of one struct page that the page model reads. -/
structure PageFields where
  flags : Nat
  compound_head : Nat
  first_page : Nat
  deriving Repr, DecidableEq

/-- The target memory image and configuration as seen by the page
model: the session constants of class Page plus the raw field reads. -/
structure PageImage where
  vmemmap_base : Nat
  page_struct_size : Nat
  directmap_base : Nat
  page_size : Nat
  max_pfn : Nat
  mem : Int → PageFields

/-- A constructed Page object: descriptor address, page frame number,
and the fields read from the image. -/
structure Page where
  address : Int
  pfn : Int
  fields : PageFields

/-- Page.from_page_addr / Page.from_obj: compute the pfn from the
descriptor address by floor division; a pfn below zero or above
max_pfn yields None. -/
def Page.from_page_addr (img : PageImage) (addr : Int) : Option Page :=
  let pfn := Int.fdiv (addr - (img.vmemmap_base : Int)) (img.page_struct_size : Int)
  if pfn < 0 ∨ pfn > (img.max_pfn : Int) then none
  else some ⟨addr, pfn, img.mem addr⟩

/-- The three mutually exclusive tail tests of setup_pageflags_finish:
a dedicated PG_tail flag, the legacy PG_compound|PG_reclaim combination
(both bits must be set), or the tagged low bit of the compound_head
field. -/
inductive TailTest
  | flagBit (pgTail : Nat)
  | flagCombo (mask : Nat)
  | headBit
  deriving Repr, DecidableEq

/-- Page.is_tail dispatched over the active strategy. -/
def Page.is_tail (t : TailTest) (p : Page) : Bool :=
  match t with
  | .flagBit m => p.fields.flags &&& m ≠ 0
  | .flagCombo m => p.fields.flags &&& m = m
  | .headBit => p.fields.compound_head &&& 1 = 1

/-- The two head-pointer decodings: the legacy first_page field, or the
compound_head field minus one (the reserved low tag bit cleared). -/
inductive HeadField
  | firstPage
  | lowBit
  deriving Repr, DecidableEq

/-- Page.__compound_head dispatched over the active strategy. -/
def Page.compound_head_addr (h : HeadField) (p : Page) : Int :=
  match h with
  | .firstPage => (p.fields.first_page : Int)
  | .lowBit => (p.fields.compound_head : Int) - 1

/-- Page.compound_head: a page that is not a tail resolves to itself;
a tail page resolves the decoded head-pointer address through
Page.from_page_addr. -/
def Page.compound_head (img : PageImage) (t : TailTest) (h : HeadField)
    (p : Page) : Option Page :=
  if p.is_tail t = true then Page.from_page_addr img (p.compound_head_addr h)
  else some p

/-- page_addr: descriptor address to linear address through the pfn. -/
def page_addr (img : PageImage) (struct_page_addr : Int) : Int :=
  (img.directmap_base : Int) +
    Int.fdiv (struct_page_addr - (img.vmemmap_base : Int)) (img.page_struct_size : Int) *
      (img.page_size : Int)

/-- Address of the struct page of a pfn in the vmemmap array
(Page.pfn_to_page in the sparsemem_vmemmap configuration). -/
def pfn_to_page_addr (img : PageImage) (pfn : Int) : Int :=
  (img.vmemmap_base : Int) + pfn * (img.page_struct_size : Int)

/-- pfn_to_page: the Page built from the vmemmap entry of a pfn. -/
def pfn_to_page (img : PageImage) (pfn : Int) : Page :=
  ⟨pfn_to_page_addr img pfn, pfn, img.mem (pfn_to_page_addr img pfn)⟩

/-- page_from_addr: linear address back to the Page via floor division
by the page size. -/
def page_from_addr (img : PageImage) (addr : Int) : Page :=
  pfn_to_page img (Int.fdiv (addr - (img.directmap_base : Int)) (img.page_size : Int))

/-- A concrete image for witnesses: the default x86 bases, 64-byte
struct page, 4 KiB pages. -/
def imgDemo : PageImage :=
  ⟨0xffffea0000000000, 64, 0xffff880000000000, 4096, 1000000, fun _ => ⟨0, 0, 0⟩⟩

/-- A concrete tail page for witnesses: its compound_head field holds
the tagged address of the descriptor of pfn 5. -/
def pageDemo : Page :=
  ⟨0xffffea0000000180, 6, ⟨0, 0xffffea0000000141, 0⟩⟩

/-! ## Slab allocator model (crash/types/slab.py)

The struct-page slab configuration (Slab.page_slab true, external
freelist index array) and the legacy struct-slab configuration
(intrusive bufctl chain) are both modelled.  Printed error messages
become a structured findings list; the external collaborators
(Page.from_addr followed by compound_head, the array-cache aggregate)
are passed in as data. -/

/-- Origin kind of an array-cache entry. -/
inductive AcType
  | percpu
  | shared
  | alien
  deriving Repr, DecidableEq

/-- The cache_dict recorded for every array-cache entry: origin kind,
source node and target node (-1 stands for the per-CPU case's absent
source node). -/
structure AcDict where
  ac_type : AcType
  nid_src : Int
  nid_tgt : Int
  deriving Repr, DecidableEq

/-- The three slab lists of a node: slabs_partial, slabs_full,
slabs_free. -/
inductive SlabListTy
  | part
  | full
  | free
  deriving Repr, DecidableEq

/-- Structured counterpart of the diagnostics printed by slab.py. -/
inductive SlabFinding
  | freeIdxOverflow (idx cap : Nat)
  | dupFreeEntry (objAddr : Nat)
  | bufctlCycle
  | inuseMismatch (inuse numFree total cap : Nat)
  | misplacedOnList (listName : SlabListTy) (inuse cap : Nat)
  | wrongSlabNid (slabNid nid : Int)
  | freeAndArrayCache (objAddr : Nat)
  | pageLookupFailed (objAddr : Nat)
  | wrongObjNid (objAddr : Nat) (objNid nid : Int)
  | notSlabPage (objAddr : Nat)
  | wrongCachePtr (objAddr got expected : Nat)
  | unrecoverable (listName : SlabListTy)
  | retryReverse (listName : SlabListTy)
  | okRun (num first last : Nat)
  | misplacedRun (num : Nat)
  | firstMisplaced (slabAddr : Nat)
  deriving Repr, DecidableEq

/-- Findings that Slab.__add_free_obj_by_idx or the bufctl walk can
produce. -/
def SlabFinding.isPopKind : SlabFinding → Bool
  | .freeIdxOverflow _ _ => true
  | .dupFreeEntry _ => true
  | .bufctlCycle => true
  | _ => false

/-- Findings that the per-object loop of Slab.check can produce. -/
def SlabFinding.isObjKind : SlabFinding → Bool
  | .freeAndArrayCache _ => true
  | .pageLookupFailed _ => true
  | .wrongObjNid _ _ _ => true
  | .notSlabPage _ => true
  | .wrongCachePtr _ _ _ => true
  | _ => false

/-- A KmemCache as slab.py reads it: capacity (the num field), object
size (buffer_size), and the memoized aggregated array-cache map. -/
structure KmemCacheModel where
  name : String
  addr : Nat
  objs_per_slab : Nat
  buffer_size : Nat
  array_caches : List (Nat × AcDict)

/-- Lookup in the aggregated array-cache map (Python dict access). -/
def acLookup (m : List (Nat × AcDict)) (k : Nat) : Option AcDict :=
  (m.find? (fun e => e.1 == k)).map (fun e => e.2)

/-- The end marker of the intrusive bufctl chain. -/
def BUFCTL_END : Nat := 0xffffffff

/-- One slab as slab.py reads it: descriptor address, in-use count,
first-object address s_mem, the external freelist index array (struct
page layout), the intrusive chain head and bufctl array (struct slab
layout), and the node id decoded from the slab page flags. -/
structure SlabData where
  address : Nat
  inuse : Nat
  s_mem : Nat
  freelist : Nat → Nat
  free_head : Nat
  bufctl : Nat → Nat
  page_nid : Int

/-- Slab.__add_free_obj_by_idx: an index at or above the capacity is an
overflow finding; an address already collected is a duplicate finding;
otherwise the address joins the free set.  Returns the updated state
and whether the entry was fresh. -/
def addFreeObjByIdx (cache : KmemCacheModel) (s_mem : Nat)
    (st : List SlabFinding × Finset Nat) (idx : Nat) :
    (List SlabFinding × Finset Nat) × Bool :=
  if idx ≥ cache.objs_per_slab then
    ((st.1 ++ [.freeIdxOverflow idx cache.objs_per_slab], st.2), false)
  else
    if s_mem + idx * cache.buffer_size ∈ st.2 then
      ((st.1 ++ [.dupFreeEntry (s_mem + idx * cache.buffer_size)], st.2), false)
    else
      ((st.1, insert (s_mem + idx * cache.buffer_size) st.2), true)

/-- Slab.__populate_free for the struct-page layout: walk the external
freelist index array from position inuse to the capacity, collecting
each entry (a failed add does not stop the loop). -/
def populateFreePage (cache : KmemCacheModel) (slab : SlabData) :
    List SlabFinding × Finset Nat :=
  (List.range' slab.inuse (cache.objs_per_slab - slab.inuse)).foldl
    (fun st i => (addFreeObjByIdx cache slab.s_mem st (slab.freelist i)).1)
    ([], ∅)

/-- Slab.__populate_free for the struct-slab layout: follow the
intrusive chain from the free head until the end marker; a failed add
(overflow or duplicate) is reported as a bufctl cycle and stops the
walk.  Each iteration before termination adds a fresh address drawn
from the capacity-bounded slot range, so objs_per_slab + 1 iterations
always suffice. -/
def bufctlWalk (cache : KmemCacheModel) (s_mem : Nat) (bufctl : Nat → Nat) :
    Nat → Nat → List SlabFinding × Finset Nat → List SlabFinding × Finset Nat
  | 0, _, st => st
  | fuel + 1, f, st =>
    if f = BUFCTL_END then st
    else
      let r := addFreeObjByIdx cache s_mem st f
      if r.2 then bufctlWalk cache s_mem bufctl fuel (bufctl f) r.1
      else (r.1.1 ++ [.bufctlCycle], r.1.2)

/-- Slab.__populate_free, struct-slab layout entry point. -/
def populateFreeBufctl (cache : KmemCacheModel) (slab : SlabData) :
    List SlabFinding × Finset Nat :=
  bufctlWalk cache slab.s_mem slab.bufctl (cache.objs_per_slab + 1)
    slab.free_head ([], ∅)

/-- Slab.find_obj: reject an address below s_mem or whose slot index
reaches the capacity; otherwise return the containing slot's base
address (floor division by the object size). -/
def find_obj (cache : KmemCacheModel) (slab : SlabData) (addr : Nat) : Option Nat :=
  if addr < slab.s_mem then none
  else
    if (addr - slab.s_mem) / cache.buffer_size ≥ cache.objs_per_slab then none
    else some (slab.s_mem + ((addr - slab.s_mem) / cache.buffer_size) * cache.buffer_size)

/-- Slab.contains_obj (struct-page layout): a rejected or zero slot
address reports no object (the Python falsiness test on obj_addr);
otherwise the slot is classified as free, present in an array cache,
or allocated, in that order. -/
def contains_obj (cache : KmemCacheModel) (slab : SlabData) (addr : Nat) :
    Bool × Nat × Option AcDict :=
  match find_obj cache slab addr with
  | none => (false, 0, none)
  | some objAddr =>
    if objAddr = 0 then (false, 0, none)
    else
      if objAddr ∈ (populateFreePage cache slab).2 then (false, objAddr, none)
      else
        match acLookup cache.array_caches objAddr with
        | some d => (false, objAddr, some d)
        | none => (true, objAddr, none)

/-- Result of Page.from_addr(obj).compound_head() as Slab.check reads
it: the head page address, its decoded node id, its PageSlab bit, and
its slab_cache pointer.  None models the exception path. -/
structure PageLook where
  address : Nat
  nid : Int
  is_slab : Bool
  slab_cache : Nat
  deriving Repr, DecidableEq

/-- The external collaborator of Slab.check: the page lookup for an
object address. -/
structure SlabEnv where
  pageFromAddr : Nat → Option PageLook

/-- Slab.get_objects: the slot base addresses of a slab. -/
def getObjects (cache : KmemCacheModel) (slab : SlabData) : List Nat :=
  (List.range cache.objs_per_slab).map (fun i => slab.s_mem + i * cache.buffer_size)

/-- One iteration of the per-object loop of Slab.check, carrying the
findings so far and last_page_addr: the free-and-array-cache exclusion
check, the page lookup (whose failure is caught and reported), the
last-page short cut, then the node, PageSlab and cache-pointer checks
of the object's page. -/
def checkObjStep (env : SlabEnv) (cache : KmemCacheModel) (nid : Int)
    (free : Finset Nat) (st : List SlabFinding × Nat) (obj : Nat) :
    List SlabFinding × Nat :=
  let acFs : List SlabFinding :=
    if obj ∈ free ∧ acLookup cache.array_caches obj ≠ none
    then [.freeAndArrayCache obj] else []
  match env.pageFromAddr obj with
  | none => (st.1 ++ acFs ++ [.pageLookupFailed obj], st.2)
  | some page =>
    if page.address = st.2 then (st.1 ++ acFs, st.2)
    else
      let nidFs : List SlabFinding :=
        if page.nid ≠ nid then [.wrongObjNid obj page.nid nid] else []
      let slabFs : List SlabFinding :=
        if page.is_slab = false then [.notSlabPage obj] else []
      let ptrFs : List SlabFinding :=
        if page.slab_cache ≠ cache.addr
        then [.wrongCachePtr obj page.slab_cache cache.addr] else []
      (st.1 ++ acFs ++ nidFs ++ slabFs ++ ptrFs, page.address)

/-- Slab.check in the struct-page configuration (where the off-slab
branch is vacuous): recompute the free set, compare inuse + free
against the capacity, check membership against the list type and the
slab page's node id, then scan every object's page.  Returns the
findings and the recomputed free count. -/
def slabCheck (env : SlabEnv) (cache : KmemCacheModel) (slab : SlabData)
    (slabtype : SlabListTy) (nid : Int) : List SlabFinding × Nat :=
  let pop := populateFreePage cache slab
  let num_free := pop.2.card
  let max_free := cache.objs_per_slab
  let fs1 : List SlabFinding :=
    if slab.inuse + num_free ≠ max_free
    then [.inuseMismatch slab.inuse num_free (slab.inuse + num_free) max_free]
    else []
  let fs2 : List SlabFinding :=
    match slabtype with
    | .free =>
      if num_free ≠ max_free then [.misplacedOnList .free slab.inuse max_free] else []
    | .part =>
      if num_free = 0 ∨ num_free = max_free
      then [.misplacedOnList .part slab.inuse max_free] else []
    | .full =>
      if num_free > 0 then [.misplacedOnList .full slab.inuse max_free] else []
  let fs3 : List SlabFinding :=
    if nid ≠ slab.page_nid then [.wrongSlabNid slab.page_nid nid] else []
  let objs := (getObjects cache slab).foldl (checkObjStep env cache nid pop.2) ([], 0)
  (pop.1 ++ fs1 ++ fs2 ++ fs3 ++ objs.1, num_free)

/-- A concrete cache for witnesses and counterexamples: capacity 10,
object size 100, no array-cache entries. -/
def cacheDemo : KmemCacheModel := ⟨"demo", 4096, 10, 100, []⟩

/-- A concrete fully-allocated slab for the demo cache: objects at
1000, 1100, ..., 1900, empty freelist. -/
def slabDemo : SlabData :=
  ⟨8192, 10, 1000, fun _ => 0, BUFCTL_END, fun _ => BUFCTL_END, 0⟩

/-- A concrete struct-slab-layout slab whose bufctl chain self-loops
at index 3. -/
def slabLoopDemo : SlabData :=
  ⟨4096, 8, 2000, fun _ => 0, 3, fun _ => 3, 0⟩

/-! ## Array-cache aggregation (KmemCache.__fill_array_cache,
KmemCache.__fill_alien_caches)

The aggregated map is an association list in insertion order; the
printed warnings become findings.  Page.from_addr(ptr).get_nid() and
numa_node_id are external collaborators passed in as functions. -/

/-- Diagnostics of the array-cache aggregation. -/
inductive AcFinding
  | duplicity (ptr : Nat)
  | wrongNid (ptr : Nat) (objNid nidTgt : Int)
  deriving Repr, DecidableEq

/-- One array_cache as read from the image: avail, limit, and the
entry array. -/
structure AcSlot where
  avail : Nat
  limit : Nat
  entry : Nat → Nat

/-- External collaborators of the aggregation: the node id of the page
backing a pointer, and numa_node_id for a cpu. -/
structure AcEnv where
  pageNid : Nat → Int
  numaNode : Int → Int

/-- KmemCache.__fill_array_cache: skip an empty cache; otherwise record
every entry pointer under the cache_dict built before the per-CPU
target remap, reporting duplicates, and check each entry's page node
against the (possibly remapped) target node. -/
def fillArrayCache (env : AcEnv) (st : List (Nat × AcDict) × List AcFinding)
    (acache : AcSlot) (ac_type : AcType) (nid_src nid_tgt : Int) :
    List (Nat × AcDict) × List AcFinding :=
  if acache.avail = 0 then st
  else
    let cacheDict : AcDict := ⟨ac_type, nid_src, nid_tgt⟩
    let tgt : Int := if ac_type = .percpu then env.numaNode nid_tgt else nid_tgt
    (List.range acache.avail).foldl
      (fun st i =>
        let ptr := acache.entry i
        let st1 :=
          if (acLookup st.1 ptr).isSome
          then (st.1, st.2 ++ [.duplicity ptr])
          else (st.1 ++ [(ptr, cacheDict)], st.2)
        if env.pageNid ptr ≠ tgt
        then (st1.1, st1.2 ++ [.wrongNid ptr (env.pageNid ptr) tgt])
        else st1) st

/-- KmemCache.__fill_alien_caches: a null alien-cache pointer returns
at once; per possible node, a null per-node array is skipped, a slot
whose node equals the source node is skipped, and any other slot is
merged as an alien array cache. -/
def fillAlienCaches (env : AcEnv) (nids : List Nat)
    (alien : Option (Nat → Option AcSlot)) (nid_src : Int)
    (st : List (Nat × AcDict) × List AcFinding) :
    List (Nat × AcDict) × List AcFinding :=
  match alien with
  | none => st
  | some slots =>
    nids.foldl
      (fun st nid =>
        match slots nid with
        | none => st
        | some array =>
          if nid_src = (nid : Int) then st
          else fillArrayCache env st array .alien nid_src (nid : Int)) st

/-! ## Slab list traversal with reverse retry
(KmemCache.___check_slabs, KmemCache.__check_slabs)

list_for_each_entry is an external collaborator: for a given list and
direction it yields a sequence of slabs (each possibly failed to
initialize, the error=True case) and then possibly raises; the model
receives the yielded prefix and the optional exception message. -/

/-- The errors dictionary of KmemCache.__check_slab, grouping runs of
consistent and misplaced slabs. -/
structure RunState where
  first_ok : Option Nat
  last_ok : Nat
  num_ok : Nat
  last_misplaced : Option Nat
  num_misplaced : Nat
  deriving Repr, DecidableEq

/-- The initial errors dictionary. -/
def initRun : RunState := ⟨none, 0, 0, none, 0⟩

/-- Whether a finding is the deferred misplaced-list diagnostic
(slab.misplaced_error is not None). -/
def SlabFinding.isMisplacedErr : SlabFinding → Bool
  | .misplacedOnList _ _ _ => true
  | _ => false

/-- Whether a finding is the reverse-retry notice. -/
def SlabFinding.isRetry : SlabFinding → Bool
  | .retryReverse _ => true
  | _ => false

/-- KmemCache.__check_slab: run Slab.check unless the slab failed to
initialize, flush a pending misplaced run when this slab is not
misplaced, then account the slab into the ok run or flush the ok run
and account it into the misplaced run.  The state is (findings so far,
errors dictionary, free objects counted so far). -/
def checkSlabItem (env : SlabEnv) (cache : KmemCacheModel) (slabtype : SlabListTy)
    (nid : Int) (st : List SlabFinding × RunState × Nat)
    (item : SlabData × Bool) : List SlabFinding × RunState × Nat :=
  let chk := if item.2 = false then slabCheck env cache item.1 slabtype nid else ([], 0)
  let hasMis := chk.1.any SlabFinding.isMisplacedErr
  let err : Bool := item.2 || !chk.1.isEmpty
  let fs1 := st.1 ++ chk.1
  let p2 : List SlabFinding × RunState :=
    if hasMis = false ∧ st.2.1.num_misplaced > 0 then
      (fs1 ++ [.misplacedRun st.2.1.num_misplaced],
        { st.2.1 with
          num_misplaced := 0
          last_misplaced := none })
    else (fs1, st.2.1)
  let p3 : List SlabFinding × RunState :=
    if err = false then
      (p2.1,
        { p2.2 with
          num_ok := p2.2.num_ok + 1
          last_ok := item.1.address
          first_ok := some (p2.2.first_ok.getD item.1.address) })
    else
      let q1 : List SlabFinding × RunState :=
        if p2.2.num_ok > 0 then
          (p2.1 ++ [.okRun p2.2.num_ok (p2.2.first_ok.getD 0) p2.2.last_ok],
            { p2.2 with
              num_ok := 0
              first_ok := none
              last_ok := 0 })
        else (p2.1, p2.2)
      if hasMis then
        ((if q1.2.num_misplaced = 0 then q1.1 ++ [.firstMisplaced item.1.address]
          else q1.1),
          { q1.2 with
            num_misplaced := q1.2.num_misplaced + 1
            last_misplaced := some item.1.address })
      else q1
  (p3.1, p3.2, st.2.2 + chk.2)

/-- External collaborators of the slab list checks: the page lookup
used by Slab.check, and list_for_each_entry over a named slab list in
a direction (the yielded slabs with their init-failure flags, then the
optional exception). -/
structure SlabTravEnv where
  checkEnv : SlabEnv
  fromList : SlabListTy → Bool → List (SlabData × Bool) × Option String

/-- Result of KmemCache.___check_slabs: whether the traversal
completed, the slabs seen, the free objects counted, the findings. -/
structure SlabsOnceResult where
  check_ok : Bool
  slabs : Nat
  free : Nat
  findings : List SlabFinding
  deriving Repr, DecidableEq

/-- KmemCache.___check_slabs: fold __check_slab over the yielded
slabs; an exception becomes an unrecoverable-list finding and clears
check_ok; finally any pending ok run and misplaced run are flushed. -/
def checkSlabsOnce (env : SlabTravEnv) (cache : KmemCacheModel)
    (slabtype : SlabListTy) (nid : Int) (reverse : Bool) : SlabsOnceResult :=
  let tr := env.fromList slabtype reverse
  let r := tr.1.foldl (checkSlabItem env.checkEnv cache slabtype nid) ([], initRun, 0)
  let p : Bool × List SlabFinding :=
    match tr.2 with
    | none => (true, r.1)
    | some _ => (false, r.1 ++ [.unrecoverable slabtype])
  let fs2 := if r.2.1.num_ok > 0 then
      p.2 ++ [.okRun r.2.1.num_ok (r.2.1.first_ok.getD 0) r.2.1.last_ok]
    else p.2
  let fs3 := if r.2.1.num_misplaced > 0 then fs2 ++ [.misplacedRun r.2.1.num_misplaced]
    else fs2
  ⟨p.1, tr.1.length, r.2.2, fs3⟩

/-- KmemCache.__check_slabs: traverse forward; when that fails, note
the retry and traverse the same list once in reverse, accumulating the
free counts.  Returns the free objects counted and the findings. -/
def checkSlabs (env : SlabTravEnv) (cache : KmemCacheModel)
    (slabtype : SlabListTy) (nid : Int) : Nat × List SlabFinding :=
  let r1 := checkSlabsOnce env cache slabtype nid false
  if r1.check_ok then (r1.free, r1.findings)
  else
    let r2 := checkSlabsOnce env cache slabtype nid true
    (r1.free + r2.free, r1.findings ++ [.retryReverse slabtype] ++ r2.findings)

/-- Number of reverse-retry notices for a given slab list among the
findings. -/
def slabRetryCount (fs : List SlabFinding) (ty : SlabListTy) : Nat :=
  fs.countP (fun f => decide (f = SlabFinding.retryReverse ty))

/-! ## Zone free-area / pageset checker (crash/types/zone.py)

Zone._check_free_area walks every migration-type bucket of one free
area (or pcplist), forward then once in reverse on corruption, checks
each page, counts the entries, and compares the count with the
declared counter.  list_for_each_entry and Page.from_obj are external
collaborators passed in as data. -/

/-- Structured counterpart of the diagnostics printed by
Zone._check_free_area. -/
inductive ZFinding
  | invalidPage (addr mt : Nat)
  | badState (addr pfn mt : Nat)
  | misplaced (addr pfn mt pageNid pageZid : Nat)
  | traverseError (mt : Nat) (msg : String)
  | retryReverse (mt : Nat)
  | countMismatch (expected counted : Nat)
  deriving Repr, DecidableEq

/-- Findings the per-entry checks can produce. -/
def ZFinding.isEntryKind : ZFinding → Bool
  | .invalidPage _ _ => true
  | .badState _ _ _ => true
  | .misplaced _ _ _ _ _ => true
  | _ => false

/-- Findings a bucket walk can produce (everything but the final
counter comparison). -/
def ZFinding.isBucketKind : ZFinding → Bool
  | .countMismatch _ _ => false
  | _ => true

/-- One page as Zone._check_free_area reads it: descriptor address,
pfn, the head reference count (page.page_count), the raw mapcount, the
page_type word, the private field (buddy order), the mapping pointer,
the flags word and the mem_cgroup pointer. -/
structure ZPage where
  address : Nat
  pfn : Nat
  page_count : Int
  mapcount : Int
  page_type : Nat
  priv : Nat
  mapping : Nat
  flags : Nat
  mem_cgroup : Nat
  deriving Repr, DecidableEq

/-- The session constants Zone._check_free_area depends on: word
width, node and zone field widths, and the two disallowed-flag
masks. -/
structure PageConfig where
  bits_per_long : Nat
  nodes_width : Nat
  zones_width : Nat
  check_at_free : Nat
  check_at_prep : Nat
  deriving Repr, DecidableEq

/-- Page.get_nid: the node id packed in the top bits of flags. -/
def zpGetNid (cfg : PageConfig) (p : ZPage) : Nat :=
  p.flags >>> (cfg.bits_per_long - cfg.nodes_width)

/-- Page.get_zid: the zone id packed below the node id. -/
def zpGetZid (cfg : PageConfig) (p : ZPage) : Nat :=
  (p.flags >>> (cfg.bits_per_long - cfg.nodes_width - cfg.zones_width)) &&&
    ((1 <<< cfg.zones_width) - 1)

/-- Page.is_buddy: the packed type field against the reserved base
pattern plus the buddy bit. -/
def zpIsBuddy (p : ZPage) : Bool :=
  p.page_type &&& (0xf0000000 ||| 0x00000080) == 0xf0000000

/-- Zone._check_freelist_page: whether the accumulated errors string
would be nonempty (zero refcount, PageBuddy, matching buddy order,
null mapping, no disallowed prep flags, null mem_cgroup). -/
def checkFreelistPage (cfg : PageConfig) (p : ZPage) (expected_order : Nat) : Bool :=
  (p.page_count != 0) ||
  (!zpIsBuddy p) ||
  (p.priv != expected_order) ||
  (p.mapping != 0) ||
  (p.flags &&& cfg.check_at_prep != 0) ||
  (p.mem_cgroup != 0)

/-- Zone._check_pcplist_page: whether the accumulated errors string
would be nonempty (zero refcount, raw mapcount -1, null mapping, not
PageBuddy, no disallowed free flags, null mem_cgroup). -/
def checkPcplistPage (cfg : PageConfig) (p : ZPage) : Bool :=
  (p.page_count != 0) ||
  (p.mapcount != -1) ||
  (p.mapping != 0) ||
  (zpIsBuddy p) ||
  (p.flags &&& cfg.check_at_free != 0) ||
  (p.mem_cgroup != 0)

/-- External collaborators of Zone._check_free_area: the list walk of
one migration-type bucket in a direction (yielded page object
addresses, then the optional CorruptListError message), and
Page.from_obj. -/
structure ZoneEnv where
  traverse : Nat → Bool → List Nat × Option String
  pageFromObj : Nat → Option ZPage

/-- One free area or pcplist as the checker reads it: how many
migration-type buckets its list array has, and its declared counter
(nr_free or count). -/
structure AreaData where
  numLists : Nat
  declared : Nat
  deriving Repr, DecidableEq

/-- One entry of a bucket walk: an invalid page pointer is reported
and not counted; a valid page is counted, checked for unexpected
state, and checked against the zone's node and zone ids. -/
def zoneProcessEntry (env : ZoneEnv) (cfg : PageConfig) (is_pcp : Bool)
    (order_cpu mt nid zid : Nat) (st : List ZFinding × Nat) (addr : Nat) :
    List ZFinding × Nat :=
  match env.pageFromObj addr with
  | none => (st.1 ++ [.invalidPage addr mt], st.2)
  | some p =>
    let errs := if is_pcp then checkPcplistPage cfg p else checkFreelistPage cfg p order_cpu
    let fs1 : List ZFinding := if errs then [.badState addr p.pfn mt] else []
    let fs2 : List ZFinding :=
      if zpGetNid cfg p ≠ nid ∨ zpGetZid cfg p ≠ zid
      then [.misplaced addr p.pfn mt (zpGetNid cfg p) (zpGetZid cfg p)] else []
    (st.1 ++ fs1 ++ fs2, st.2 + 1)

/-- One migration-type bucket of Zone._check_free_area: walk forward;
on corruption report it, note the retry and walk the same bucket once
in reverse, reporting a reverse corruption as well.  Entries of both
attempts are counted into the running total. -/
def checkBucket (env : ZoneEnv) (cfg : PageConfig) (is_pcp : Bool)
    (order_cpu nid zid : Nat) (st : List ZFinding × Nat) (mt : Nat) :
    List ZFinding × Nat :=
  let fwd := env.traverse mt false
  let st1 := fwd.1.foldl (zoneProcessEntry env cfg is_pcp order_cpu mt nid zid) st
  match fwd.2 with
  | none => st1
  | some msg =>
    let rev := env.traverse mt true
    let st2 := rev.1.foldl (zoneProcessEntry env cfg is_pcp order_cpu mt nid zid)
      (st1.1 ++ [.traverseError mt msg] ++ [.retryReverse mt], st1.2)
    match rev.2 with
    | none => st2
    | some msg2 => (st2.1 ++ [.traverseError mt msg2], st2.2)

/-- Zone._check_free_area: walk every bucket of the area, then compare
the counted total against the declared counter, reporting a mismatch
with both values.  Returns the findings and the counted total. -/
def checkFreeArea (env : ZoneEnv) (cfg : PageConfig) (area : AreaData)
    (is_pcp : Bool) (order_cpu nid zid : Nat) : List ZFinding × Nat :=
  let st := (List.range area.numLists).foldl
    (checkBucket env cfg is_pcp order_cpu nid zid) ([], 0)
  if st.2 ≠ area.declared then (st.1 ++ [.countMismatch area.declared st.2], st.2)
  else st

/-- Number of reverse-retry notices for a given bucket among the
findings. -/
def zRetryCount (fs : List ZFinding) (mt : Nat) : Nat :=
  fs.countP (fun f => decide (f = ZFinding.retryReverse mt))

/-- A traversal environment for witnesses: every slab list is empty
and its forward walk raises, its reverse walk succeeds. -/
def slabTravEnvDemo : SlabTravEnv :=
  ⟨⟨fun _ => none⟩, fun _ rev => ([], if rev then none else some "cycle")⟩

/-- A zone environment for witnesses: every bucket is empty and its
forward walk hits a corrupt list, its reverse walk succeeds. -/
def zoneEnvDemo : ZoneEnv :=
  ⟨fun _ rev => ([], if rev then none else some "list cycle"), fun _ => none⟩

/-- A page configuration for witnesses. -/
def cfgDemo : PageConfig := ⟨64, 8, 2, 0, 0⟩

/-- A one-bucket area with declared counter 0 for witnesses. -/
def areaDemo : AreaData := ⟨1, 0⟩

end CrashPython

namespace CrashPython

/-- Entries of a sorted address table are monotone in the index. -/
theorem sorted_getD {l : List Nat} (hs : List.Sorted (· ≤ ·) l) {i j : Nat}
    (hij : i ≤ j) (hj : j < l.length) : l.getD i 0 ≤ l.getD j 0 := by
  rcases eq_or_lt_of_le hij with rfl | hlt
  · exact le_refl _
  · have hi : i < l.length := lt_trans hlt hj
    have := List.pairwise_iff_get.mp hs ⟨i, hi⟩ ⟨j, hj⟩ hlt
    simpa [List.getD_eq_getElem?_getD, List.getElem?_eq_getElem, hi, hj] using this

/-- The binary-search loop keeps its bracket invariant: the returned
position is inside the bracket, its entry is at or below addr, and the
next position is either past the table or holds an address above addr. -/
theorem bsearchGo_spec (addrs : List Nat) (addr : Nat) :
    ∀ fuel low high, high - low ≤ fuel + 1 → low < high → high ≤ addrs.length →
      addrs.getD low 0 ≤ addr →
      (high = addrs.length ∨ addr < addrs.getD high 0) →
      low ≤ bsearchGo addrs addr fuel low high ∧
        bsearchGo addrs addr fuel low high < high ∧
        addrs.getD (bsearchGo addrs addr fuel low high) 0 ≤ addr ∧
        (bsearchGo addrs addr fuel low high + 1 = addrs.length ∨
          addr < addrs.getD (bsearchGo addrs addr fuel low high + 1) 0) := by
  intro fuel
  induction fuel with
  | zero =>
    intro low high hf hlh hhn hlow hhigh
    rw [bsearchGo]
    have hh1 : high = low + 1 := by omega
    refine ⟨le_refl _, hlh, hlow, ?_⟩
    rcases hhigh with h1 | h2
    · exact Or.inl (by omega)
    · exact Or.inr (by rw [hh1] at h2; exact h2)
  | succ n ih =>
    intro low high hf hlh hhn hlow hhigh
    rw [bsearchGo]
    by_cases h : high - low > 1
    · rw [if_pos h]
      by_cases hle : addrs.getD (low + (high - low) / 2) 0 ≤ addr
      · rw [if_pos hle]
        have := ih (low + (high - low) / 2) high (by omega) (by omega) hhn hle hhigh
        exact ⟨by omega, this.2.1, this.2.2.1, this.2.2.2⟩
      · rw [if_neg hle]
        have hmid : addr < addrs.getD (low + (high - low) / 2) 0 := Nat.lt_of_not_le hle
        have := ih low (low + (high - low) / 2) (by omega) (by omega) (by omega) hlow
          (Or.inr hmid)
        exact ⟨this.1, by omega, this.2.2.1, this.2.2.2⟩
    · rw [if_neg h]
      have hh1 : high = low + 1 := by omega
      refine ⟨le_refl _, hlh, hlow, ?_⟩
      rcases hhigh with h1 | h2
      · exact Or.inl (by omega)
      · exact Or.inr (by rw [hh1] at h2; exact h2)

/-- Specialization of the bracket invariant to the top-level search over
the whole table. -/
theorem bsearchLoop_spec (addrs : List Nat) (addr : Nat)
    (hlen : 0 < addrs.length) (hin : addrs.getD 0 0 ≤ addr) :
    bsearchLoop addrs addr 0 addrs.length < addrs.length ∧
      addrs.getD (bsearchLoop addrs addr 0 addrs.length) 0 ≤ addr ∧
      (bsearchLoop addrs addr 0 addrs.length + 1 = addrs.length ∨
        addr < addrs.getD (bsearchLoop addrs addr 0 addrs.length + 1) 0) := by
  have := bsearchGo_spec addrs addr (addrs.length - 0) 0 addrs.length (by omega)
    hlen (le_refl _) hin (Or.inl rfl)
  exact ⟨this.2.1, this.2.2.1, this.2.2.2⟩

/-- Sliding left never moves right. -/
theorem slideLeft_le (addrs : List Nat) : ∀ low, slideLeft addrs low ≤ low := by
  intro low
  induction low with
  | zero => simp [slideLeft]
  | succ n ih =>
    rw [slideLeft]
    by_cases h : addrs.getD n 0 = addrs.getD (n + 1) 0
    · rw [if_pos h]; omega
    · rw [if_neg h]

/-- Sliding left preserves the entry address. -/
theorem slideLeft_getD (addrs : List Nat) :
    ∀ low, addrs.getD (slideLeft addrs low) 0 = addrs.getD low 0 := by
  intro low
  induction low with
  | zero => rfl
  | succ n ih =>
    rw [slideLeft]
    by_cases h : addrs.getD n 0 = addrs.getD (n + 1) 0
    · rw [if_pos h, ih, h]
    · rw [if_neg h]

/-- Sliding left lands on the first entry of a duplicate run. -/
theorem slideLeft_first (addrs : List Nat) :
    ∀ low, slideLeft addrs low = 0 ∨
      addrs.getD (slideLeft addrs low - 1) 0 ≠ addrs.getD (slideLeft addrs low) 0 := by
  intro low
  induction low with
  | zero => exact Or.inl rfl
  | succ n ih =>
    rw [slideLeft]
    by_cases h : addrs.getD n 0 = addrs.getD (n + 1) 0
    · rw [if_pos h]; exact ih
    · rw [if_neg h]; exact Or.inr (by simpa using h)

/-- When every entry from position i on is at or below symbolStart, the
symbol-end scan finds nothing, for any iteration bound. -/
theorem symbolEndGo_none (addrs : List Nat) (symbolStart : Nat) :
    ∀ fuel i, (∀ j, i ≤ j → j < addrs.length → addrs.getD j 0 ≤ symbolStart) →
      symbolEndGo addrs symbolStart fuel i = none := by
  intro fuel
  induction fuel with
  | zero => intro i _; rfl
  | succ n ih =>
    intro i hall
    rw [symbolEndGo]
    by_cases h : i < addrs.length
    · rw [if_pos h]
      have hle : ¬ symbolStart < addrs.getD i 0 :=
        Nat.not_lt.mpr (hall i (le_refl _) h)
      rw [if_neg hle]
      exact ih (i + 1) (fun j hj hjl => hall j (by omega) hjl)
    · rw [if_neg h]

/-- The position component of the resolution result is the slid-left
binary-search position, whichever way the size scan went. -/
theorem getSymbolPos_pos (addrs : List Nat) (addr : Nat) :
    (getSymbolPos addrs addr).pos =
      slideLeft addrs (bsearchLoop addrs addr 0 addrs.length) := by
  simp only [getSymbolPos]
  split <;> rfl

/-- The offset component of the resolution result is the queried
address minus the matched entry, whichever way the size scan went. -/
theorem getSymbolPos_offset (addrs : List Nat) (addr : Nat) :
    (getSymbolPos addrs addr).offset =
      addr - addrs.getD (slideLeft addrs (bsearchLoop addrs addr 0 addrs.length)) 0 := by
  simp only [getSymbolPos]
  split <;> rfl

/-- C1: for every address at or above the first table entry, symbol
resolution lands on a position whose entry is the greatest start at or
below the address, slid left to the first entry of a run of duplicate
addresses, and the reported offset is exactly the distance from that
start (offset + start = addr, with no truncation). -/
theorem c1_resolve_greatest_start (addrs : List Nat) (addr : Nat)
    (hs : List.Sorted (· ≤ ·) addrs) (hne : addrs ≠ [])
    (hin : addrs.getD 0 0 ≤ addr) :
    (getSymbolPos addrs addr).pos < addrs.length ∧
    addrs.getD (getSymbolPos addrs addr).pos 0 ≤ addr ∧
    (∀ j, j < addrs.length → addrs.getD j 0 ≤ addr →
      addrs.getD j 0 ≤ addrs.getD (getSymbolPos addrs addr).pos 0) ∧
    ((getSymbolPos addrs addr).pos = 0 ∨
      addrs.getD ((getSymbolPos addrs addr).pos - 1) 0 ≠
        addrs.getD (getSymbolPos addrs addr).pos 0) ∧
    (getSymbolPos addrs addr).offset + addrs.getD (getSymbolPos addrs addr).pos 0 = addr := by
  have hlen : 0 < addrs.length := List.length_pos.mpr hne
  have hb := bsearchLoop_spec addrs addr hlen hin
  have hpr : slideLeft addrs (bsearchLoop addrs addr 0 addrs.length) ≤
      bsearchLoop addrs addr 0 addrs.length := slideLeft_le addrs _
  have hpv : addrs.getD (slideLeft addrs (bsearchLoop addrs addr 0 addrs.length)) 0 =
      addrs.getD (bsearchLoop addrs addr 0 addrs.length) 0 := slideLeft_getD addrs _
  rw [getSymbolPos_pos, getSymbolPos_offset]
  refine ⟨by omega, ?_, ?_, ?_, ?_⟩
  · rw [hpv]; exact hb.2.1
  · intro j hjl hja
    rw [hpv]
    by_cases hjr : j ≤ bsearchLoop addrs addr 0 addrs.length
    · exact sorted_getD hs hjr (by omega)
    · exfalso
      rcases hb.2.2 with hend | habove
      · omega
      · have : addrs.getD (bsearchLoop addrs addr 0 addrs.length + 1) 0 ≤ addrs.getD j 0 :=
          sorted_getD hs (by omega) hjl
        omega
  · exact slideLeft_first addrs _
  · rw [hpv]
    have := hb.2.1
    omega

/-- C1 witness: the table [5, 10, 10, 20] queried at 12 resolves to
position 1 (the first of the duplicate run at 10) with exact offset 2. -/
theorem c1_resolve_greatest_start_witness :
    (getSymbolPos [5, 10, 10, 20] 12).pos < [5, 10, 10, 20].length ∧
    [5, 10, 10, 20].getD (getSymbolPos [5, 10, 10, 20] 12).pos 0 ≤ 12 ∧
    (∀ j, j < [5, 10, 10, 20].length → [5, 10, 10, 20].getD j 0 ≤ 12 →
      [5, 10, 10, 20].getD j 0 ≤ [5, 10, 10, 20].getD (getSymbolPos [5, 10, 10, 20] 12).pos 0) ∧
    ((getSymbolPos [5, 10, 10, 20] 12).pos = 0 ∨
      [5, 10, 10, 20].getD ((getSymbolPos [5, 10, 10, 20] 12).pos - 1) 0 ≠
        [5, 10, 10, 20].getD (getSymbolPos [5, 10, 10, 20] 12).pos 0) ∧
    (getSymbolPos [5, 10, 10, 20] 12).offset +
      [5, 10, 10, 20].getD (getSymbolPos [5, 10, 10, 20] 12).pos 0 = 12 :=
  c1_resolve_greatest_start [5, 10, 10, 20] 12 (by decide) (by decide) (by decide)

/-- C8: when no entry above the matched position holds a strictly
greater address, resolution still returns: the result is flagged as
faked (the printed warning) and the size is reported as equal to the
offset. -/
theorem c8_size_fallback (addrs : List Nat) (addr : Nat)
    (hall : ∀ i, i < addrs.length → (getSymbolPos addrs addr).pos < i →
      addrs.getD i 0 ≤ addrs.getD (getSymbolPos addrs addr).pos 0) :
    (getSymbolPos addrs addr).faked = true ∧
    (getSymbolPos addrs addr).size = (getSymbolPos addrs addr).offset := by
  have hpos := getSymbolPos_pos addrs addr
  have hnone : symbolEndSearch addrs
      (addrs.getD (slideLeft addrs (bsearchLoop addrs addr 0 addrs.length)) 0)
      (slideLeft addrs (bsearchLoop addrs addr 0 addrs.length) + 1) = none := by
    apply symbolEndGo_none
    intro j hj hjl
    have := hall j hjl (by omega)
    rwa [hpos] at this
  simp only [getSymbolPos, hnone]
  exact ⟨trivial, trivial⟩

/-- C8 witness: in the table [10, 10] queried at 15, the match at
position 0 has no distinct higher start after it; the result is faked
with size equal to the offset. -/
theorem c8_size_fallback_witness :
    (getSymbolPos [10, 10] 15).faked = true ∧
    (getSymbolPos [10, 10] 15).size = (getSymbolPos [10, 10] 15).offset :=
  c8_size_fallback [10, 10] 15 (by decide)

/-- C7: compound_head on a page whose tail indicator is unset returns
the very same page descriptor; on a tail page whose compound_head
field, with its reserved low bit cleared, is the descriptor address of
frame F within range, it returns the descriptor for frame F read at
that address. -/
theorem c7_compound_head (img : PageImage) (p : Page) (F : Int)
    (hsz : 0 < img.page_struct_size) :
    (p.is_tail .headBit = false →
      Page.compound_head img .headBit .lowBit p = some p) ∧
    (p.is_tail .headBit = true →
      (p.fields.compound_head : Int) - 1 =
        (img.vmemmap_base : Int) + F * (img.page_struct_size : Int) →
      0 ≤ F → F ≤ (img.max_pfn : Int) →
      Page.compound_head img .headBit .lowBit p =
        some ⟨(p.fields.compound_head : Int) - 1, F,
          img.mem ((p.fields.compound_head : Int) - 1)⟩) := by
  constructor
  · intro hnt
    rw [Page.compound_head, hnt]
    simp
  · intro ht henc hF0 hFm
    rw [Page.compound_head, ht]
    rw [if_pos rfl]
    have haddr : p.compound_head_addr .lowBit = (p.fields.compound_head : Int) - 1 := rfl
    rw [haddr, Page.from_page_addr]
    have hpfn : Int.fdiv ((p.fields.compound_head : Int) - 1 - (img.vmemmap_base : Int))
        (img.page_struct_size : Int) = F := by
      rw [henc]
      have : (img.vmemmap_base : Int) + F * (img.page_struct_size : Int) -
          (img.vmemmap_base : Int) = F * (img.page_struct_size : Int) := by ring
      rw [this]
      exact Int.mul_fdiv_cancel F (by exact_mod_cast hsz.ne')
    simp only [hpfn]
    rw [if_neg (by omega)]

/-- C7 witness: on the demo image, the tail page pageDemo (tagged head
pointer to the descriptor of frame 5) resolves to the frame-5
descriptor. -/
theorem c7_compound_head_witness :
    Page.compound_head imgDemo .headBit .lowBit pageDemo =
      some ⟨(pageDemo.fields.compound_head : Int) - 1, 5,
        imgDemo.mem ((pageDemo.fields.compound_head : Int) - 1)⟩ :=
  (c7_compound_head imgDemo pageDemo 5 (by decide)).2 (by decide) (by decide)
    (by decide) (by decide)

/-- C10: for every frame number k, page_addr maps the descriptor
address vmemmap_base + k * sizeof(struct page) to the linear address
directmap_base + k * PAGE_SIZE, and page_from_addr maps that linear
address back to the page with frame number k. -/
theorem c10_page_translation_round_trip (img : PageImage) (k : Nat)
    (hs : 0 < img.page_struct_size) (hp : 0 < img.page_size) :
    page_addr img ((img.vmemmap_base : Int) + k * (img.page_struct_size : Int)) =
      (img.directmap_base : Int) + k * (img.page_size : Int) ∧
    (page_from_addr img ((img.directmap_base : Int) + k * (img.page_size : Int))).pfn = k := by
  constructor
  · rw [page_addr]
    have h1 : (img.vmemmap_base : Int) + k * (img.page_struct_size : Int) -
        (img.vmemmap_base : Int) = k * (img.page_struct_size : Int) := by ring
    rw [h1, Int.mul_fdiv_cancel _ (by exact_mod_cast hs.ne')]
  · rw [page_from_addr]
    have h1 : (img.directmap_base : Int) + k * (img.page_size : Int) -
        (img.directmap_base : Int) = k * (img.page_size : Int) := by ring
    rw [h1, Int.mul_fdiv_cancel _ (by exact_mod_cast hp.ne')]
    rfl

/-- C10 witness: frame 7 round-trips on the demo image. -/
theorem c10_page_translation_round_trip_witness :
    page_addr imgDemo ((imgDemo.vmemmap_base : Int) + 7 * (imgDemo.page_struct_size : Int)) =
      (imgDemo.directmap_base : Int) + 7 * (imgDemo.page_size : Int) ∧
    (page_from_addr imgDemo
      ((imgDemo.directmap_base : Int) + 7 * (imgDemo.page_size : Int))).pfn = 7 :=
  c10_page_translation_round_trip imgDemo 7 (by decide) (by decide)

/-- Every finding emitted by one add step is inherited from the state
or is of free-set-reconstruction kind. -/
theorem addFree_findings_kinds (cache : KmemCacheModel) (s_mem : Nat)
    (st : List SlabFinding × Finset Nat) (idx : Nat) :
    ∀ x ∈ ((addFreeObjByIdx cache s_mem st idx).1).1,
      x ∈ st.1 ∨ x.isPopKind = true := by
  intro x hx
  rw [addFreeObjByIdx] at hx
  by_cases h1 : idx ≥ cache.objs_per_slab
  · rw [if_pos h1] at hx
    rcases List.mem_append.mp hx with h | h
    · exact Or.inl h
    · simp only [List.mem_singleton] at h; subst h; exact Or.inr rfl
  · rw [if_neg h1] at hx
    by_cases h2 : s_mem + idx * cache.buffer_size ∈ st.2
    · rw [if_pos h2] at hx
      rcases List.mem_append.mp hx with h | h
      · exact Or.inl h
      · simp only [List.mem_singleton] at h; subst h; exact Or.inr rfl
    · rw [if_neg h2] at hx
      exact Or.inl hx

/-- Every finding of the page-layout free-set reconstruction is of
reconstruction kind. -/
theorem populateFreePage_findings_kinds (cache : KmemCacheModel) (slab : SlabData) :
    ∀ x ∈ (populateFreePage cache slab).1, x.isPopKind = true := by
  have key : ∀ (l : List Nat) (st : List SlabFinding × Finset Nat),
      (∀ x ∈ st.1, x.isPopKind = true) →
      ∀ x ∈ (l.foldl
        (fun st i => (addFreeObjByIdx cache slab.s_mem st (slab.freelist i)).1) st).1,
        x.isPopKind = true := by
    intro l
    induction l with
    | nil => intro st h; exact h
    | cons a t ih =>
      intro st h
      simp only [List.foldl_cons]
      apply ih
      intro x hx
      rcases addFree_findings_kinds cache slab.s_mem st (slab.freelist a) x hx with h1 | h1
      · exact h x h1
      · exact h1
  rw [populateFreePage]
  exact key _ ([], ∅) (by intro x hx; cases hx)

/-- Anything in an optional singleton of a per-object finding is of
per-object kind. -/
theorem forall_mem_objKind_if {c : Prop} [Decidable c] {a : SlabFinding}
    (ha : SlabFinding.isObjKind a = true) :
    ∀ x ∈ (if c then [a] else []), SlabFinding.isObjKind x = true := by
  split_ifs
  · intro x hx
    rcases List.mem_singleton.mp hx with rfl
    exact ha
  · intro x hx
    cases hx

/-- One per-object step of Slab.check appends only findings of
per-object kind. -/
theorem checkObjStep_findings (env : SlabEnv) (cache : KmemCacheModel) (nid : Int)
    (free : Finset Nat) (st : List SlabFinding × Nat) (obj : Nat) :
    ∃ new, (checkObjStep env cache nid free st obj).1 = st.1 ++ new ∧
      ∀ x ∈ new, SlabFinding.isObjKind x = true := by
  simp only [checkObjStep]
  rcases env.pageFromAddr obj with _ | page
  · refine ⟨_, List.append_assoc _ _ _, ?_⟩
    refine List.forall_mem_append.mpr ⟨forall_mem_objKind_if rfl, ?_⟩
    intro x hx
    rcases List.mem_singleton.mp hx with rfl
    rfl
  · dsimp only
    by_cases hlast : page.address = st.2
    · rw [if_pos hlast]
      exact ⟨_, rfl, forall_mem_objKind_if rfl⟩
    · rw [if_neg hlast]
      refine ⟨(if obj ∈ free ∧ acLookup cache.array_caches obj ≠ none
          then [SlabFinding.freeAndArrayCache obj] else []) ++
        ((if page.nid ≠ nid then [SlabFinding.wrongObjNid obj page.nid nid] else []) ++
          ((if page.is_slab = false then [SlabFinding.notSlabPage obj] else []) ++
            (if page.slab_cache ≠ cache.addr
             then [SlabFinding.wrongCachePtr obj page.slab_cache cache.addr] else []))),
        ?_, ?_⟩
      · simp [List.append_assoc]
      · exact List.forall_mem_append.mpr ⟨forall_mem_objKind_if rfl,
          List.forall_mem_append.mpr ⟨forall_mem_objKind_if rfl,
            List.forall_mem_append.mpr ⟨forall_mem_objKind_if rfl,
              forall_mem_objKind_if rfl⟩⟩⟩

/-- Every finding of the per-object loop of Slab.check is of per-object
kind. -/
theorem checkObjLoop_findings_kinds (env : SlabEnv) (cache : KmemCacheModel) (nid : Int)
    (free : Finset Nat) (objs : List Nat) :
    ∀ x ∈ (objs.foldl (checkObjStep env cache nid free) ([], 0)).1, x.isObjKind = true := by
  have key : ∀ (l : List Nat) (st : List SlabFinding × Nat),
      (∀ x ∈ st.1, x.isObjKind = true) →
      ∀ x ∈ (l.foldl (checkObjStep env cache nid free) st).1, x.isObjKind = true := by
    intro l
    induction l with
    | nil => intro st h; exact h
    | cons a t ih =>
      intro st h
      simp only [List.foldl_cons]
      apply ih
      rcases checkObjStep_findings env cache nid free st a with ⟨new, heq, hnew⟩
      intro x hx
      rw [heq] at hx
      rcases List.mem_append.mp hx with h1 | h1
      · exact h x h1
      · exact hnew x h1
  exact key objs ([], 0) (by intro x hx; cases hx)

/-- The free count returned by Slab.check is the cardinality of the
recomputed free set. -/
theorem slabCheck_num_free (env : SlabEnv) (cache : KmemCacheModel) (slab : SlabData)
    (slabtype : SlabListTy) (nid : Int) :
    (slabCheck env cache slab slabtype nid).2 = (populateFreePage cache slab).2.card := rfl

/-- C2: Slab.check reports the inuse + free vs capacity inconsistency,
carrying the computed sum and the capacity, exactly when the in-use
count plus the recomputed free-set size differs from objs_per_slab;
the check is total (it returns its findings, never raises), and no
other branch of the check can fabricate this finding. -/
theorem c2_slab_inuse_free_capacity_check (env : SlabEnv) (cache : KmemCacheModel)
    (slab : SlabData) (slabtype : SlabListTy) (nid : Int) :
    (SlabFinding.inuseMismatch slab.inuse (slabCheck env cache slab slabtype nid).2
        (slab.inuse + (slabCheck env cache slab slabtype nid).2) cache.objs_per_slab
      ∈ (slabCheck env cache slab slabtype nid).1) ↔
      slab.inuse + (slabCheck env cache slab slabtype nid).2 ≠ cache.objs_per_slab := by
  rw [slabCheck_num_free]
  constructor
  · intro hmem
    intro heq
    simp only [slabCheck] at hmem
    rw [if_neg (by omega)] at hmem
    rcases List.mem_append.mp hmem with hmem | hobj
    · rcases List.mem_append.mp hmem with hmem | hfs3
      · rcases List.mem_append.mp hmem with hmem | hfs2
        · rcases List.mem_append.mp hmem with hpop | hfs1
          · have := populateFreePage_findings_kinds cache slab _ hpop
            simp [SlabFinding.isPopKind] at this
          · cases hfs1
        · rcases slabtype <;> revert hfs2 <;> dsimp only <;> split_ifs <;> intro hfs2
          · simp at hfs2
          · cases hfs2
          · simp at hfs2
          · cases hfs2
          · simp at hfs2
          · cases hfs2
      · revert hfs3
        split_ifs <;> intro hfs3
        · simp at hfs3
        · cases hfs3
    · have := checkObjLoop_findings_kinds env cache nid (populateFreePage cache slab).2
        (getObjects cache slab) _ hobj
      simp [SlabFinding.isObjKind] at this
  · intro hne
    simp only [slabCheck]
    rw [if_pos (by omega)]
    refine List.mem_append.mpr (Or.inl ?_)
    refine List.mem_append.mpr (Or.inl ?_)
    refine List.mem_append.mpr (Or.inl ?_)
    refine List.mem_append.mpr (Or.inr ?_)
    exact List.mem_singleton.mpr rfl

/-- C4 counterexample: the address 1050 is misaligned for slabDemo
(it sits 50 bytes into the 100-byte slot at 1000) and in range, yet
contains_obj does not reject it: it reports the containing slot 1000
as an allocated object. -/
theorem c4_misaligned_classified_counterexample :
    (1050 - slabDemo.s_mem) % cacheDemo.buffer_size ≠ 0 ∧
    slabDemo.s_mem ≤ 1050 ∧
    (1050 - slabDemo.s_mem) / cacheDemo.buffer_size < cacheDemo.objs_per_slab ∧
    contains_obj cacheDemo slabDemo 1050 = (true, 1000, none) ∧
    (true, 1000, (none : Option AcDict)) ≠ (false, 0, (none : Option AcDict)) := by
  decide

/-- C4 (amended): contains_obj rejects an address below s_mem, an
address whose floor-division slot index reaches the capacity, and the
degenerate slot address zero (the Python falsiness test); every other
address, aligned or not, is mapped to its containing slot, which is
classified as exactly one of free, present in an array cache, or
allocated, in that priority order.  The hypothesis on the object size
marks the domain on which the embedding is faithful: a zero
buffer_size raises ZeroDivisionError in the source. -/
theorem c4_contains_obj_classification (cache : KmemCacheModel) (slab : SlabData)
    (addr : Nat) (hb : 0 < cache.buffer_size) :
    (addr < slab.s_mem → contains_obj cache slab addr = (false, 0, none)) ∧
    (slab.s_mem ≤ addr → cache.objs_per_slab ≤ (addr - slab.s_mem) / cache.buffer_size →
      contains_obj cache slab addr = (false, 0, none)) ∧
    (slab.s_mem ≤ addr → (addr - slab.s_mem) / cache.buffer_size < cache.objs_per_slab →
      slab.s_mem + ((addr - slab.s_mem) / cache.buffer_size) * cache.buffer_size = 0 →
      contains_obj cache slab addr = (false, 0, none)) ∧
    (slab.s_mem ≤ addr → (addr - slab.s_mem) / cache.buffer_size < cache.objs_per_slab →
      slab.s_mem + ((addr - slab.s_mem) / cache.buffer_size) * cache.buffer_size ≠ 0 →
      ((slab.s_mem + ((addr - slab.s_mem) / cache.buffer_size) * cache.buffer_size ∈
          (populateFreePage cache slab).2 →
        contains_obj cache slab addr =
          (false, slab.s_mem + ((addr - slab.s_mem) / cache.buffer_size) * cache.buffer_size,
            none)) ∧
       (slab.s_mem + ((addr - slab.s_mem) / cache.buffer_size) * cache.buffer_size ∉
          (populateFreePage cache slab).2 →
        ∀ d, acLookup cache.array_caches
            (slab.s_mem + ((addr - slab.s_mem) / cache.buffer_size) * cache.buffer_size) =
            some d →
          contains_obj cache slab addr =
            (false, slab.s_mem + ((addr - slab.s_mem) / cache.buffer_size) * cache.buffer_size,
              some d)) ∧
       (slab.s_mem + ((addr - slab.s_mem) / cache.buffer_size) * cache.buffer_size ∉
          (populateFreePage cache slab).2 →
        acLookup cache.array_caches
            (slab.s_mem + ((addr - slab.s_mem) / cache.buffer_size) * cache.buffer_size) =
            none →
        contains_obj cache slab addr =
          (true, slab.s_mem + ((addr - slab.s_mem) / cache.buffer_size) * cache.buffer_size,
            none)))) := by
  refine ⟨?_, ?_, ?_, ?_⟩
  · intro h
    rw [contains_obj, find_obj, if_pos h]
  · intro h1 h2
    rw [contains_obj, find_obj, if_neg (by omega), if_pos h2]
  · intro h1 h2 h0
    rw [contains_obj, find_obj, if_neg (by omega), if_neg (by omega)]
    dsimp only
    rw [if_pos h0]
  · intro h1 h2 h0
    refine ⟨?_, ?_, ?_⟩
    · intro hfree
      rw [contains_obj, find_obj, if_neg (by omega), if_neg (by omega)]
      dsimp only
      rw [if_neg h0, if_pos hfree]
    · intro hfree d hd
      rw [contains_obj, find_obj, if_neg (by omega), if_neg (by omega)]
      dsimp only
      rw [if_neg h0, if_neg hfree, hd]
    · intro hfree hd
      rw [contains_obj, find_obj, if_neg (by omega), if_neg (by omega)]
      dsimp only
      rw [if_neg h0, if_neg hfree, hd]

/-- C4 witness for the amended claim: the misaligned in-range address
1050 classifies its containing slot 1000 as allocated on slabDemo. -/
theorem c4_contains_obj_classification_witness :
    contains_obj cacheDemo slabDemo 1050 = (true, 1000, none) :=
  ((c4_contains_obj_classification cacheDemo slabDemo 1050 (by decide)).2.2.2
    (by decide) (by decide) (by decide)).2.2 (by decide) rfl

/-- One add step never removes an address from the free set. -/
theorem addFree_set_mono (cache : KmemCacheModel) (s_mem : Nat)
    (st : List SlabFinding × Finset Nat) (idx : Nat) :
    st.2 ⊆ ((addFreeObjByIdx cache s_mem st idx).1).2 := by
  rw [addFreeObjByIdx]
  split_ifs with h1 h2
  · exact Finset.Subset.refl _
  · exact Finset.Subset.refl _
  · exact Finset.subset_insert _ _

/-- One add step never drops a finding. -/
theorem addFree_findings_mono (cache : KmemCacheModel) (s_mem : Nat)
    (st : List SlabFinding × Finset Nat) (idx : Nat) {x : SlabFinding}
    (hx : x ∈ st.1) : x ∈ ((addFreeObjByIdx cache s_mem st idx).1).1 := by
  rw [addFreeObjByIdx]
  split_ifs with h1 h2
  · exact List.mem_append.mpr (Or.inl hx)
  · exact List.mem_append.mpr (Or.inl hx)
  · exact hx

/-- After an add step with a valid index, the slot address of that
index is in the free set (it was either fresh or already collected). -/
theorem addFree_mem (cache : KmemCacheModel) (s_mem : Nat)
    (st : List SlabFinding × Finset Nat) (idx : Nat)
    (hidx : idx < cache.objs_per_slab) :
    s_mem + idx * cache.buffer_size ∈ ((addFreeObjByIdx cache s_mem st idx).1).2 := by
  rw [addFreeObjByIdx, if_neg (by omega)]
  split_ifs with h2
  · exact h2
  · exact Finset.mem_insert_self _ _

/-- An add step on an already-collected valid index reports the
duplicate. -/
theorem addFree_dup (cache : KmemCacheModel) (s_mem : Nat)
    (st : List SlabFinding × Finset Nat) (idx : Nat)
    (hidx : idx < cache.objs_per_slab)
    (hmem : s_mem + idx * cache.buffer_size ∈ st.2) :
    SlabFinding.dupFreeEntry (s_mem + idx * cache.buffer_size) ∈
      ((addFreeObjByIdx cache s_mem st idx).1).1 := by
  rw [addFreeObjByIdx, if_neg (by omega), if_pos hmem]
  exact List.mem_append.mpr (Or.inr (List.mem_singleton.mpr rfl))

/-- The page-layout reconstruction fold never removes an address. -/
theorem populateFold_set_mono (cache : KmemCacheModel) (slab : SlabData) :
    ∀ (l : List Nat) (st : List SlabFinding × Finset Nat),
      st.2 ⊆ (l.foldl
        (fun st i => (addFreeObjByIdx cache slab.s_mem st (slab.freelist i)).1) st).2 := by
  intro l
  induction l with
  | nil => intro st; exact Finset.Subset.refl _
  | cons a t ih =>
    intro st
    simp only [List.foldl_cons]
    exact (addFree_set_mono cache slab.s_mem st (slab.freelist a)).trans (ih _)

/-- The page-layout reconstruction fold never drops a finding. -/
theorem populateFold_findings_mono (cache : KmemCacheModel) (slab : SlabData) :
    ∀ (l : List Nat) (st : List SlabFinding × Finset Nat) {x : SlabFinding},
      x ∈ st.1 →
      x ∈ (l.foldl
        (fun st i => (addFreeObjByIdx cache slab.s_mem st (slab.freelist i)).1) st).1 := by
  intro l
  induction l with
  | nil => intro st x hx; exact hx
  | cons a t ih =>
    intro st x hx
    simp only [List.foldl_cons]
    exact ih _ (addFree_findings_mono cache slab.s_mem st (slab.freelist a) hx)

/-- Every position of the fold's index list with a valid freelist entry
contributes its slot address to the final free set. -/
theorem populateFold_collects (cache : KmemCacheModel) (slab : SlabData) :
    ∀ (l : List Nat) (st : List SlabFinding × Finset Nat) (i : Nat),
      i ∈ l → slab.freelist i < cache.objs_per_slab →
      slab.s_mem + slab.freelist i * cache.buffer_size ∈
        (l.foldl
          (fun st i => (addFreeObjByIdx cache slab.s_mem st (slab.freelist i)).1) st).2 := by
  intro l
  induction l with
  | nil => intro st i hi; cases hi
  | cons a t ih =>
    intro st i hi hvalid
    simp only [List.foldl_cons]
    rcases List.mem_cons.mp hi with rfl | hit
    · exact populateFold_set_mono cache slab t _
        (addFree_mem cache slab.s_mem st (slab.freelist i) hvalid)
    · exact ih _ i hit hvalid

/-- If a position of the fold's index list holds a valid entry whose
slot address was already collected, the fold reports the duplicate. -/
theorem populateFold_dup (cache : KmemCacheModel) (slab : SlabData) :
    ∀ (l : List Nat) (st : List SlabFinding × Finset Nat) (j : Nat),
      j ∈ l → slab.freelist j < cache.objs_per_slab →
      slab.s_mem + slab.freelist j * cache.buffer_size ∈ st.2 →
      SlabFinding.dupFreeEntry (slab.s_mem + slab.freelist j * cache.buffer_size) ∈
        (l.foldl
          (fun st i => (addFreeObjByIdx cache slab.s_mem st (slab.freelist i)).1) st).1 := by
  intro l
  induction l with
  | nil => intro st j hj; cases hj
  | cons a t ih =>
    intro st j hj hvalid hmem
    simp only [List.foldl_cons]
    rcases List.mem_cons.mp hj with rfl | hjt
    · exact populateFold_findings_mono cache slab t _
        (addFree_dup cache slab.s_mem st (slab.freelist j) hvalid hmem)
    · exact ih _ j hjt hvalid (addFree_set_mono cache slab.s_mem st (slab.freelist a) hmem)

/-- Invariant of the bufctl chain walk: the free set only grows, a
valid pending index always ends up collected, and the final set is
closed under following the bufctl chain from any collected index.  The
iteration bound never runs out because every recursive step collects a
fresh address out of at most objs_per_slab slots. -/
theorem bufctlWalk_invariant (cache : KmemCacheModel) (s_mem : Nat) (bufctl : Nat → Nat)
    (hb : 0 < cache.buffer_size) (hcap : cache.objs_per_slab ≤ BUFCTL_END) :
    ∀ fuel f (st : List SlabFinding × Finset Nat),
      st.2 ⊆ Finset.image (fun i => s_mem + i * cache.buffer_size)
        (Finset.range cache.objs_per_slab) →
      (∀ i, i < cache.objs_per_slab → s_mem + i * cache.buffer_size ∈ st.2 →
        bufctl i < cache.objs_per_slab →
        (s_mem + bufctl i * cache.buffer_size ∈ st.2 ∨ bufctl i = f)) →
      cache.objs_per_slab + 1 - st.2.card ≤ fuel →
      st.2 ⊆ (bufctlWalk cache s_mem bufctl fuel f st).2 ∧
      (f ≠ BUFCTL_END → f < cache.objs_per_slab →
        s_mem + f * cache.buffer_size ∈ (bufctlWalk cache s_mem bufctl fuel f st).2) ∧
      (∀ i, i < cache.objs_per_slab →
        s_mem + i * cache.buffer_size ∈ (bufctlWalk cache s_mem bufctl fuel f st).2 →
        bufctl i < cache.objs_per_slab →
        s_mem + bufctl i * cache.buffer_size ∈ (bufctlWalk cache s_mem bufctl fuel f st).2) := by
  intro fuel
  induction fuel with
  | zero =>
    intro f st hsub hinv hfuel
    exfalso
    have h1 : st.2.card ≤ cache.objs_per_slab := by
      calc st.2.card ≤ (Finset.image (fun i => s_mem + i * cache.buffer_size)
            (Finset.range cache.objs_per_slab)).card := Finset.card_le_card hsub
        _ ≤ (Finset.range cache.objs_per_slab).card := Finset.card_image_le
        _ = cache.objs_per_slab := Finset.card_range _
    omega
  | succ n ih =>
    intro f st hsub hinv hfuel
    rw [bufctlWalk]
    by_cases hend : f = BUFCTL_END
    · rw [if_pos hend]
      refine ⟨Finset.Subset.refl _, fun hne _ => absurd hend hne, ?_⟩
      intro i hi hmem hbi
      rcases hinv i hi hmem hbi with h | h
      · exact h
      · omega
    · rw [if_neg hend]
      by_cases hover : f ≥ cache.objs_per_slab
      · have : addFreeObjByIdx cache s_mem st f =
            ((st.1 ++ [.freeIdxOverflow f cache.objs_per_slab], st.2), false) := by
          rw [addFreeObjByIdx, if_pos hover]
        rw [this]
        refine ⟨Finset.Subset.refl _, fun _ hlt => by omega, ?_⟩
        intro i hi hmem hbi
        rcases hinv i hi hmem hbi with h | h
        · exact h
        · omega
      · push_neg at hover
        by_cases hdup : s_mem + f * cache.buffer_size ∈ st.2
        · have : addFreeObjByIdx cache s_mem st f =
              ((st.1 ++ [.dupFreeEntry (s_mem + f * cache.buffer_size)], st.2), false) := by
            rw [addFreeObjByIdx, if_neg (by omega), if_pos hdup]
          rw [this]
          refine ⟨Finset.Subset.refl _, fun _ _ => hdup, ?_⟩
          intro i hi hmem hbi
          rcases hinv i hi hmem hbi with h | h
          · exact h
          · rw [h]; exact hdup
        · have hstep : addFreeObjByIdx cache s_mem st f =
              ((st.1, insert (s_mem + f * cache.buffer_size) st.2), true) := by
            rw [addFreeObjByIdx, if_neg (by omega), if_neg hdup]
          rw [hstep]
          have hsub2 : insert (s_mem + f * cache.buffer_size) st.2 ⊆
              Finset.image (fun i => s_mem + i * cache.buffer_size)
                (Finset.range cache.objs_per_slab) := by
            refine Finset.insert_subset ?_ hsub
            exact Finset.mem_image.mpr ⟨f, Finset.mem_range.mpr hover, rfl⟩
          have hinv2 : ∀ i, i < cache.objs_per_slab →
              s_mem + i * cache.buffer_size ∈ insert (s_mem + f * cache.buffer_size) st.2 →
              bufctl i < cache.objs_per_slab →
              (s_mem + bufctl i * cache.buffer_size ∈
                  insert (s_mem + f * cache.buffer_size) st.2 ∨ bufctl i = bufctl f) := by
            intro i hi hmem hbi
            rcases Finset.mem_insert.mp hmem with heq | hold
            · have hif : i = f := by
                have := Nat.add_left_cancel heq
                exact Nat.eq_of_mul_eq_mul_right hb this
              exact Or.inr (by rw [hif])
            · rcases hinv i hi hold hbi with h | h
              · exact Or.inl (Finset.mem_insert_of_mem h)
              · exact Or.inl (by rw [h]; exact Finset.mem_insert_self _ _)
          have hfuel2 : cache.objs_per_slab + 1 -
              (insert (s_mem + f * cache.buffer_size) st.2).card ≤ n := by
            rw [Finset.card_insert_of_not_mem hdup]
            omega
          have := ih (bufctl f) (st.1, insert (s_mem + f * cache.buffer_size) st.2)
            hsub2 hinv2 hfuel2
          refine ⟨?_, ?_, this.2.2⟩
          · exact (Finset.subset_insert _ _).trans this.1
          · intro _ _
            exact this.1 (Finset.mem_insert_self _ _)

/-- C5: a duplicate free-list entry is reported as corruption and
costs nothing that could still be collected, in both layouts.  For the
external index array, every valid entry of the array joins the free
set even when duplicates occur elsewhere, and any entry repeating an
earlier slot address is reported as a duplicate.  For the intrusive
chain, the collected set contains the chain head and is closed under
following the chain, so the walk ends only once nothing new is
reachable, and a chain that revisits its head reports the duplicate
(and the cycle) while keeping the collected set. -/
theorem c5_duplicate_free_entry_handling (cache : KmemCacheModel) (slab : SlabData)
    (hb : 0 < cache.buffer_size) (hcap : cache.objs_per_slab ≤ BUFCTL_END) :
    (∀ i, slab.inuse ≤ i → i < cache.objs_per_slab →
      slab.freelist i < cache.objs_per_slab →
      slab.s_mem + slab.freelist i * cache.buffer_size ∈ (populateFreePage cache slab).2) ∧
    (∀ i j, slab.inuse ≤ i → i < j → j < cache.objs_per_slab →
      slab.freelist i < cache.objs_per_slab → slab.freelist j < cache.objs_per_slab →
      slab.s_mem + slab.freelist i * cache.buffer_size =
        slab.s_mem + slab.freelist j * cache.buffer_size →
      SlabFinding.dupFreeEntry (slab.s_mem + slab.freelist j * cache.buffer_size) ∈
        (populateFreePage cache slab).1) ∧
    (slab.free_head < cache.objs_per_slab →
      slab.s_mem + slab.free_head * cache.buffer_size ∈ (populateFreeBufctl cache slab).2) ∧
    (∀ i, i < cache.objs_per_slab →
      slab.s_mem + i * cache.buffer_size ∈ (populateFreeBufctl cache slab).2 →
      slab.bufctl i < cache.objs_per_slab →
      slab.s_mem + slab.bufctl i * cache.buffer_size ∈ (populateFreeBufctl cache slab).2) ∧
    (slab.bufctl slab.free_head = slab.free_head → slab.free_head < cache.objs_per_slab →
      SlabFinding.dupFreeEntry (slab.s_mem + slab.free_head * cache.buffer_size) ∈
        (populateFreeBufctl cache slab).1 ∧
      SlabFinding.bufctlCycle ∈ (populateFreeBufctl cache slab).1) := by
  have hwalk := bufctlWalk_invariant cache slab.s_mem slab.bufctl hb hcap
    (cache.objs_per_slab + 1) slab.free_head ([], ∅)
    (by intro x hx; cases Finset.not_mem_empty x hx)
    (by intro i _ hmem; cases Finset.not_mem_empty _ hmem)
    (by simp)
  refine ⟨?_, ?_, ?_, ?_, ?_⟩
  · intro i hge hlt hvalid
    rw [populateFreePage]
    refine populateFold_collects cache slab _ _ i ?_ hvalid
    rw [List.mem_range']
    exact ⟨i - slab.inuse, by omega, by omega⟩
  · intro i j hge hij hj hvi hvj heq
    rw [populateFreePage]
    have hsplit : List.range' slab.inuse (cache.objs_per_slab - slab.inuse) =
        List.range' slab.inuse (i + 1 - slab.inuse) ++
          List.range' (slab.inuse + (i + 1 - slab.inuse)) (cache.objs_per_slab - (i + 1)) := by
      rw [List.range'_append_1]
      congr 1
      omega
    rw [hsplit, List.foldl_append]
    refine populateFold_dup cache slab _ _ j ?_ hvj ?_
    · rw [List.mem_range']
      exact ⟨j - (slab.inuse + (i + 1 - slab.inuse)), by omega, by omega⟩
    · rw [← heq]
      refine populateFold_collects cache slab _ _ i ?_ hvi
      rw [List.mem_range']
      exact ⟨i - slab.inuse, by omega, by omega⟩
  · intro hh
    have hne : slab.free_head ≠ BUFCTL_END := by omega
    exact hwalk.2.1 hne hh
  · exact hwalk.2.2
  · intro hloop hh
    have hne : slab.free_head ≠ BUFCTL_END := by omega
    obtain ⟨c, hc⟩ : ∃ c, cache.objs_per_slab = c + 1 := ⟨cache.objs_per_slab - 1, by omega⟩
    have hfuel : cache.objs_per_slab + 1 = c + 1 + 1 := by omega
    rw [populateFreeBufctl, hfuel, bufctlWalk, if_neg hne]
    have hstep : addFreeObjByIdx cache slab.s_mem ([], ∅) slab.free_head =
        (([], insert (slab.s_mem + slab.free_head * cache.buffer_size) ∅), true) := by
      rw [addFreeObjByIdx, if_neg (by omega), if_neg (Finset.not_mem_empty _)]
    rw [hstep]
    dsimp only
    rw [hloop, bufctlWalk, if_neg hne]
    have hstep2 : addFreeObjByIdx cache slab.s_mem
        ([], insert (slab.s_mem + slab.free_head * cache.buffer_size) ∅) slab.free_head =
        (([] ++ [.dupFreeEntry (slab.s_mem + slab.free_head * cache.buffer_size)],
          insert (slab.s_mem + slab.free_head * cache.buffer_size) ∅), false) := by
      rw [addFreeObjByIdx, if_neg (by omega), if_pos (Finset.mem_insert_self _ _)]
    rw [hstep2]
    dsimp only
    constructor
    · exact List.mem_append.mpr (Or.inl (List.mem_append.mpr
        (Or.inr (List.mem_singleton.mpr rfl))))
    · exact List.mem_append.mpr (Or.inr (List.mem_singleton.mpr rfl))

/-- C5 witness: on a slab whose bufctl chain self-loops at index 3,
the duplicate and the cycle are both reported. -/
theorem c5_duplicate_free_entry_handling_witness :
    SlabFinding.dupFreeEntry
        (slabLoopDemo.s_mem + slabLoopDemo.free_head * cacheDemo.buffer_size) ∈
      (populateFreeBufctl cacheDemo slabLoopDemo).1 ∧
    SlabFinding.bufctlCycle ∈ (populateFreeBufctl cacheDemo slabLoopDemo).1 :=
  (c5_duplicate_free_entry_handling cacheDemo slabLoopDemo (by decide)
    (by decide)).2.2.2.2 rfl (by decide)

/-- Anything in an optional singleton of a per-entry zone finding is
of per-entry kind. -/
theorem forall_mem_zEntry_if {c : Prop} [Decidable c] {a : ZFinding}
    (ha : ZFinding.isEntryKind a = true) :
    ∀ x ∈ (if c then [a] else []), ZFinding.isEntryKind x = true := by
  split_ifs
  · intro x hx
    rcases List.mem_singleton.mp hx with rfl
    exact ha
  · intro x hx
    cases hx

/-- Per-entry zone findings are of bucket kind. -/
theorem zEntryKind_bucketKind {x : ZFinding} (h : ZFinding.isEntryKind x = true) :
    ZFinding.isBucketKind x = true := by
  cases x <;> simp_all [ZFinding.isEntryKind, ZFinding.isBucketKind]

/-- A per-entry zone finding is never the reverse-retry notice. -/
theorem zEntryKind_not_retry {x : ZFinding} (h : ZFinding.isEntryKind x = true)
    (mt : Nat) : ¬ (decide (x = ZFinding.retryReverse mt) = true) := by
  cases x <;> simp_all [ZFinding.isEntryKind]

/-- One entry step of the bucket walk appends only per-entry
findings. -/
theorem zoneProcessEntry_findings (env : ZoneEnv) (cfg : PageConfig) (is_pcp : Bool)
    (order_cpu mt nid zid : Nat) (st : List ZFinding × Nat) (addr : Nat) :
    ∃ new, (zoneProcessEntry env cfg is_pcp order_cpu mt nid zid st addr).1 =
      st.1 ++ new ∧ ∀ x ∈ new, ZFinding.isEntryKind x = true := by
  simp only [zoneProcessEntry]
  rcases env.pageFromObj addr with _ | p
  · refine ⟨_, rfl, ?_⟩
    intro x hx
    rcases List.mem_singleton.mp hx with rfl
    rfl
  · dsimp only
    refine ⟨_, List.append_assoc _ _ _, ?_⟩
    exact List.forall_mem_append.mpr ⟨forall_mem_zEntry_if rfl, forall_mem_zEntry_if rfl⟩

/-- The bucket walk over a list of entries appends only per-entry
findings. -/
theorem zoneEntryFold_findings (env : ZoneEnv) (cfg : PageConfig) (is_pcp : Bool)
    (order_cpu mt nid zid : Nat) :
    ∀ (l : List Nat) (st : List ZFinding × Nat),
      ∃ new, (l.foldl (zoneProcessEntry env cfg is_pcp order_cpu mt nid zid) st).1 =
        st.1 ++ new ∧ ∀ x ∈ new, ZFinding.isEntryKind x = true := by
  intro l
  induction l with
  | nil =>
    intro st
    exact ⟨[], (List.append_nil _).symm, by intro x hx; cases hx⟩
  | cons a t ih =>
    intro st
    simp only [List.foldl_cons]
    rcases zoneProcessEntry_findings env cfg is_pcp order_cpu mt nid zid st a with
      ⟨n1, h1, hk1⟩
    rcases ih (zoneProcessEntry env cfg is_pcp order_cpu mt nid zid st a) with
      ⟨n2, h2, hk2⟩
    refine ⟨n1 ++ n2, ?_, ?_⟩
    · rw [h2, h1, List.append_assoc]
    · exact List.forall_mem_append.mpr ⟨hk1, hk2⟩

/-- Shape of one bucket walk when the forward traversal succeeds. -/
theorem checkBucket_eq_ok (env : ZoneEnv) (cfg : PageConfig) (is_pcp : Bool)
    (order_cpu nid zid : Nat) (st : List ZFinding × Nat) (a : Nat)
    (h : (env.traverse a false).2 = none) :
    checkBucket env cfg is_pcp order_cpu nid zid st a =
      (env.traverse a false).1.foldl
        (zoneProcessEntry env cfg is_pcp order_cpu a nid zid) st := by
  simp only [checkBucket, h]

/-- Shape of one bucket walk when the forward traversal fails and the
reverse one succeeds. -/
theorem checkBucket_eq_retry_ok (env : ZoneEnv) (cfg : PageConfig) (is_pcp : Bool)
    (order_cpu nid zid : Nat) (st : List ZFinding × Nat) (a : Nat) (msg : String)
    (h : (env.traverse a false).2 = some msg)
    (h2 : (env.traverse a true).2 = none) :
    checkBucket env cfg is_pcp order_cpu nid zid st a =
      (env.traverse a true).1.foldl
        (zoneProcessEntry env cfg is_pcp order_cpu a nid zid)
        (((env.traverse a false).1.foldl
            (zoneProcessEntry env cfg is_pcp order_cpu a nid zid) st).1 ++
          [ZFinding.traverseError a msg] ++ [ZFinding.retryReverse a],
          ((env.traverse a false).1.foldl
            (zoneProcessEntry env cfg is_pcp order_cpu a nid zid) st).2) := by
  simp only [checkBucket, h, h2]

/-- Shape of one bucket walk when both directions fail. -/
theorem checkBucket_eq_retry_fail (env : ZoneEnv) (cfg : PageConfig) (is_pcp : Bool)
    (order_cpu nid zid : Nat) (st : List ZFinding × Nat) (a : Nat) (msg msg2 : String)
    (h : (env.traverse a false).2 = some msg)
    (h2 : (env.traverse a true).2 = some msg2) :
    checkBucket env cfg is_pcp order_cpu nid zid st a =
      (((env.traverse a true).1.foldl
          (zoneProcessEntry env cfg is_pcp order_cpu a nid zid)
          (((env.traverse a false).1.foldl
              (zoneProcessEntry env cfg is_pcp order_cpu a nid zid) st).1 ++
            [ZFinding.traverseError a msg] ++ [ZFinding.retryReverse a],
            ((env.traverse a false).1.foldl
              (zoneProcessEntry env cfg is_pcp order_cpu a nid zid) st).2)).1 ++
        [ZFinding.traverseError a msg2],
        ((env.traverse a true).1.foldl
          (zoneProcessEntry env cfg is_pcp order_cpu a nid zid)
          (((env.traverse a false).1.foldl
              (zoneProcessEntry env cfg is_pcp order_cpu a nid zid) st).1 ++
            [ZFinding.traverseError a msg] ++ [ZFinding.retryReverse a],
            ((env.traverse a false).1.foldl
              (zoneProcessEntry env cfg is_pcp order_cpu a nid zid) st).2)).2) := by
  simp only [checkBucket, h, h2]

/-- One bucket of Zone._check_free_area appends only bucket-kind
findings; the reverse-retry notice for this bucket appears exactly
once when the forward walk failed and never otherwise; and a forward
corruption message is reported among the appended findings. -/
theorem checkBucket_findings (env : ZoneEnv) (cfg : PageConfig) (is_pcp : Bool)
    (order_cpu nid zid : Nat) (st : List ZFinding × Nat) (a : Nat) :
    ∃ new, (checkBucket env cfg is_pcp order_cpu nid zid st a).1 = st.1 ++ new ∧
      (∀ x ∈ new, ZFinding.isBucketKind x = true) ∧
      (∀ mt, new.countP (fun f => decide (f = ZFinding.retryReverse mt)) =
        if a = mt ∧ ((env.traverse a false).2).isSome = true then 1 else 0) ∧
      (∀ msg, (env.traverse a false).2 = some msg →
        ZFinding.traverseError a msg ∈ new) := by
  rcases zoneEntryFold_findings env cfg is_pcp order_cpu a nid zid
    (env.traverse a false).1 st with ⟨n1, h1, hk1⟩
  cases herr : (env.traverse a false).2 with
  | none =>
    refine ⟨n1, ?_, fun x hx => zEntryKind_bucketKind (hk1 x hx), ?_, ?_⟩
    · rw [checkBucket_eq_ok env cfg is_pcp order_cpu nid zid st a herr]
      exact h1
    · intro mt
      have hz : n1.countP (fun f => decide (f = ZFinding.retryReverse mt)) = 0 :=
        List.countP_eq_zero.mpr (fun x hx => zEntryKind_not_retry (hk1 x hx) mt)
      simp [hz, herr]
    · intro msg hmsg
      exact Option.noConfusion hmsg
  | some msg =>
    rcases zoneEntryFold_findings env cfg is_pcp order_cpu a nid zid
      (env.traverse a true).1
      (((env.traverse a false).1.foldl
          (zoneProcessEntry env cfg is_pcp order_cpu a nid zid) st).1 ++
        [ZFinding.traverseError a msg] ++ [ZFinding.retryReverse a],
        ((env.traverse a false).1.foldl
          (zoneProcessEntry env cfg is_pcp order_cpu a nid zid) st).2) with
      ⟨n2, h2, hk2⟩
    have hcnt : ∀ tail : List ZFinding,
        (∀ mt, tail.countP (fun f => decide (f = ZFinding.retryReverse mt)) = 0) →
        ∀ mt, (n1 ++ ([ZFinding.traverseError a msg] ++ ([ZFinding.retryReverse a] ++
            (n2 ++ tail)))).countP (fun f => decide (f = ZFinding.retryReverse mt)) =
          if a = mt ∧ (Option.some msg).isSome = true then 1 else 0 := by
      intro tail htail mt
      have z1 : n1.countP (fun f => decide (f = ZFinding.retryReverse mt)) = 0 :=
        List.countP_eq_zero.mpr (fun x hx => zEntryKind_not_retry (hk1 x hx) mt)
      have z2 : n2.countP (fun f => decide (f = ZFinding.retryReverse mt)) = 0 :=
        List.countP_eq_zero.mpr (fun x hx => zEntryKind_not_retry (hk2 x hx) mt)
      simp only [List.countP_append, List.countP_singleton, z1, z2, htail,
        Option.isSome_some, and_true]
      by_cases hamt : a = mt
      · subst hamt
        simp
      · simp [hamt]
    have hkinds : ∀ tail : List ZFinding,
        (∀ x ∈ tail, ZFinding.isBucketKind x = true) →
        ∀ x ∈ (n1 ++ ([ZFinding.traverseError a msg] ++ ([ZFinding.retryReverse a] ++
            (n2 ++ tail)))), ZFinding.isBucketKind x = true := by
      intro tail htail x hx
      simp only [List.mem_append, List.mem_singleton] at hx
      rcases hx with hx | hx | hx | hx | hx
      · exact zEntryKind_bucketKind (hk1 x hx)
      · rcases hx with rfl; rfl
      · rcases hx with rfl; rfl
      · exact zEntryKind_bucketKind (hk2 x hx)
      · exact htail x hx
    have hmem : ∀ tail : List ZFinding, ∀ m, Option.some msg = some m →
        ZFinding.traverseError a m ∈ (n1 ++ ([ZFinding.traverseError a msg] ++
          ([ZFinding.retryReverse a] ++ (n2 ++ tail)))) := by
      intro tail m hm
      cases hm
      simp
    cases herr2 : (env.traverse a true).2 with
    | none =>
      refine ⟨n1 ++ ([ZFinding.traverseError a msg] ++ ([ZFinding.retryReverse a] ++
        (n2 ++ []))), ?_, hkinds [] (by intro x hx; cases hx),
        hcnt [] (fun mt => rfl), ?_⟩
      · rw [checkBucket_eq_retry_ok env cfg is_pcp order_cpu nid zid st a msg herr herr2,
          h2, h1]
        simp [List.append_assoc]
      · intro m hm
        exact hmem [] m hm
    | some msg2 =>
      refine ⟨n1 ++ ([ZFinding.traverseError a msg] ++ ([ZFinding.retryReverse a] ++
        (n2 ++ [ZFinding.traverseError a msg2]))), ?_, ?_, ?_, ?_⟩
      · rw [checkBucket_eq_retry_fail env cfg is_pcp order_cpu nid zid st a msg msg2
          herr herr2]
        dsimp only
        rw [h2, h1]
        simp [List.append_assoc]
      · refine hkinds [ZFinding.traverseError a msg2] ?_
        intro x hx
        rcases List.mem_singleton.mp hx with rfl
        rfl
      · refine hcnt [ZFinding.traverseError a msg2] ?_
        intro mt
        simp [List.countP_singleton]
      · intro m hm
        exact hmem [ZFinding.traverseError a msg2] m hm

/-- The fold of bucket walks appends only bucket-kind findings, counts
reverse-retry notices per bucket, and reports every forward
corruption. -/
theorem bucketFold_findings (env : ZoneEnv) (cfg : PageConfig) (is_pcp : Bool)
    (order_cpu nid zid : Nat) :
    ∀ (l : List Nat) (st : List ZFinding × Nat),
      ∃ new, (l.foldl (checkBucket env cfg is_pcp order_cpu nid zid) st).1 =
        st.1 ++ new ∧
        (∀ x ∈ new, ZFinding.isBucketKind x = true) ∧
        (∀ mt, new.countP (fun f => decide (f = ZFinding.retryReverse mt)) =
          (l.map (fun a => if a = mt ∧ ((env.traverse a false).2).isSome = true
            then 1 else 0)).sum) ∧
        (∀ a msg, a ∈ l → (env.traverse a false).2 = some msg →
          ZFinding.traverseError a msg ∈ new) := by
  intro l
  induction l with
  | nil =>
    intro st
    refine ⟨[], (List.append_nil _).symm, ?_, ?_, ?_⟩
    · intro x hx; cases hx
    · intro mt; rfl
    · intro a msg ha; cases ha
  | cons b t ih =>
    intro st
    simp only [List.foldl_cons]
    rcases checkBucket_findings env cfg is_pcp order_cpu nid zid st b with
      ⟨n1, h1, hk1, hc1, hm1⟩
    rcases ih (checkBucket env cfg is_pcp order_cpu nid zid st b) with
      ⟨n2, h2, hk2, hc2, hm2⟩
    refine ⟨n1 ++ n2, ?_, ?_, ?_, ?_⟩
    · rw [h2, h1, List.append_assoc]
    · exact List.forall_mem_append.mpr ⟨hk1, hk2⟩
    · intro mt
      simp only [List.countP_append, List.map_cons, List.sum_cons, hc1, hc2]
    · intro a msg ha hmsg
      rcases List.mem_cons.mp ha with rfl | hat
      · exact List.mem_append.mpr (Or.inl (hm1 msg hmsg))
      · exact List.mem_append.mpr (Or.inr (hm2 a msg hat hmsg))

/-- The counted total of checkFreeArea does not depend on the outcome
of the final comparison. -/
theorem checkFreeArea_counted (env : ZoneEnv) (cfg : PageConfig) (area : AreaData)
    (is_pcp : Bool) (order_cpu nid zid : Nat) :
    (checkFreeArea env cfg area is_pcp order_cpu nid zid).2 =
      ((List.range area.numLists).foldl (checkBucket env cfg is_pcp order_cpu nid zid)
        ([], 0)).2 := by
  simp only [checkFreeArea]
  split_ifs <;> rfl

/-- Summing a one-bucket indicator over a duplicate-free list. -/
theorem indicator_sum_nodup (mt : Nat) (c : Nat → Prop) [DecidablePred c] :
    ∀ (l : List Nat), l.Nodup →
      (l.map (fun a => if a = mt ∧ c a then 1 else 0)).sum =
        if mt ∈ l ∧ c mt then 1 else 0 := by
  intro l
  induction l with
  | nil => intro _; simp
  | cons b t ih =>
    intro hnd
    rcases List.nodup_cons.mp hnd with ⟨hb, ht⟩
    simp only [List.map_cons, List.sum_cons, ih ht]
    by_cases hbm : b = mt
    · subst hbm
      have hnt : ¬ (b ∈ t ∧ c b) := fun h => hb h.1
      rw [if_neg hnt]
      by_cases hc : c b
      · simp [hc]
      · simp [hc]
    · have hh : ¬ (b = mt ∧ c b) := fun h => hbm h.1
      rw [if_neg hh]
      simp only [List.mem_cons, Nat.zero_add]
      by_cases hm : mt ∈ t ∧ c mt
      · rw [if_pos hm, if_pos ⟨Or.inr hm.1, hm.2⟩]
      · rw [if_neg hm, if_neg (fun hcon =>
          hm ⟨hcon.1.resolve_left (fun he => hbm he.symm), hcon.2⟩)]

/-- C6: the zone checker reports a counter mismatch carrying the
declared and the counted value exactly when the entries counted over
the area's buckets differ from the allocator's declared counter; no
bucket walk can fabricate this finding. -/
theorem c6_count_mismatch_report (env : ZoneEnv) (cfg : PageConfig) (area : AreaData)
    (is_pcp : Bool) (order_cpu nid zid : Nat) :
    (ZFinding.countMismatch area.declared
        (checkFreeArea env cfg area is_pcp order_cpu nid zid).2 ∈
      (checkFreeArea env cfg area is_pcp order_cpu nid zid).1) ↔
      area.declared ≠ (checkFreeArea env cfg area is_pcp order_cpu nid zid).2 := by
  rcases bucketFold_findings env cfg is_pcp order_cpu nid zid (List.range area.numLists)
    ([], 0) with ⟨new, heq, hkinds, _, _⟩
  have hc2 := checkFreeArea_counted env cfg area is_pcp order_cpu nid zid
  constructor
  · intro hmem hEq
    rw [hc2] at hEq
    simp only [checkFreeArea] at hmem
    rw [if_neg (by omega)] at hmem
    rw [heq] at hmem
    have := hkinds _ (by simpa using hmem)
    simp [ZFinding.isBucketKind] at this
  · intro hne
    rw [hc2] at hne
    rw [hc2]
    simp only [checkFreeArea]
    rw [if_pos (by omega)]
    exact List.mem_append.mpr (Or.inr (List.mem_singleton.mpr rfl))

/-- No finding of Slab.check is the reverse-retry notice. -/
theorem slabCheck_no_retry (env : SlabEnv) (cache : KmemCacheModel) (slab : SlabData)
    (slabtype : SlabListTy) (nid : Int) :
    ∀ x ∈ (slabCheck env cache slab slabtype nid).1, SlabFinding.isRetry x = false := by
  intro x hx
  simp only [slabCheck] at hx
  rcases List.mem_append.mp hx with hx | hobj
  · rcases List.mem_append.mp hx with hx | hfs3
    · rcases List.mem_append.mp hx with hx | hfs2
      · rcases List.mem_append.mp hx with hpop | hfs1
        · have := populateFreePage_findings_kinds cache slab _ hpop
          cases x <;> simp_all [SlabFinding.isPopKind, SlabFinding.isRetry]
        · revert hfs1
          split_ifs <;> intro hfs1
          · rcases List.mem_singleton.mp hfs1 with rfl; rfl
          · cases hfs1
      · rcases slabtype <;> revert hfs2 <;> dsimp only <;> split_ifs <;> intro hfs2
        · rcases List.mem_singleton.mp hfs2 with rfl; rfl
        · cases hfs2
        · rcases List.mem_singleton.mp hfs2 with rfl; rfl
        · cases hfs2
        · rcases List.mem_singleton.mp hfs2 with rfl; rfl
        · cases hfs2
    · revert hfs3
      split_ifs <;> intro hfs3
      · rcases List.mem_singleton.mp hfs3 with rfl; rfl
      · cases hfs3
  · have := checkObjLoop_findings_kinds env cache nid (populateFreePage cache slab).2
      (getObjects cache slab) _ hobj
    cases x <;> simp_all [SlabFinding.isObjKind, SlabFinding.isRetry]

/-- Slab.check contributes no reverse-retry notice to any count. -/
theorem slabCheck_countP_retry (env : SlabEnv) (cache : KmemCacheModel) (slab : SlabData)
    (slabtype : SlabListTy) (nid : Int) (ty : SlabListTy) :
    (slabCheck env cache slab slabtype nid).1.countP
      (fun f => decide (f = SlabFinding.retryReverse ty)) = 0 := by
  apply List.countP_eq_zero.mpr
  intro x hx
  have h := slabCheck_no_retry env cache slab slabtype nid x hx
  simp only [decide_eq_true_eq]
  intro heq
  subst heq
  exact absurd h (by simp [SlabFinding.isRetry])

/-- One step of __check_slab preserves the count of reverse-retry
notices. -/
theorem checkSlabItem_countP_retry (env : SlabEnv) (cache : KmemCacheModel)
    (slabtype : SlabListTy) (nid : Int) (st : List SlabFinding × RunState × Nat)
    (it : SlabData × Bool) (ty : SlabListTy) :
    (checkSlabItem env cache slabtype nid st it).1.countP
      (fun f => decide (f = SlabFinding.retryReverse ty)) =
    st.1.countP (fun f => decide (f = SlabFinding.retryReverse ty)) := by
  simp only [checkSlabItem]
  split_ifs <;>
    simp [List.countP_append, List.countP_singleton, slabCheck_countP_retry]

/-- The fold of __check_slab over a slab sequence preserves the count
of reverse-retry notices. -/
theorem checkSlabFold_countP_retry (env : SlabEnv) (cache : KmemCacheModel)
    (slabtype : SlabListTy) (nid : Int) (ty : SlabListTy) :
    ∀ (l : List (SlabData × Bool)) (st : List SlabFinding × RunState × Nat),
      (l.foldl (checkSlabItem env cache slabtype nid) st).1.countP
        (fun f => decide (f = SlabFinding.retryReverse ty)) =
      st.1.countP (fun f => decide (f = SlabFinding.retryReverse ty)) := by
  intro l
  induction l with
  | nil => intro st; rfl
  | cons a t ih =>
    intro st
    simp only [List.foldl_cons]
    rw [ih, checkSlabItem_countP_retry]

/-- One directed pass over a slab list produces no reverse-retry
notice. -/
theorem checkSlabsOnce_countP_retry (env : SlabTravEnv) (cache : KmemCacheModel)
    (slabtype : SlabListTy) (nid : Int) (rev : Bool) (ty : SlabListTy) :
    (checkSlabsOnce env cache slabtype nid rev).findings.countP
      (fun f => decide (f = SlabFinding.retryReverse ty)) = 0 := by
  simp only [checkSlabsOnce]
  cases hm : (env.fromList slabtype rev).2 <;>
    split_ifs <;>
    simp [List.countP_append, List.countP_singleton,
      checkSlabFold_countP_retry env.checkEnv cache slabtype nid ty]

/-- check_ok of one directed pass records whether the traversal raised. -/
theorem checkSlabsOnce_ok (env : SlabTravEnv) (cache : KmemCacheModel)
    (slabtype : SlabListTy) (nid : Int) (rev : Bool) :
    (checkSlabsOnce env cache slabtype nid rev).check_ok =
      ((env.fromList slabtype rev).2).isNone := by
  simp only [checkSlabsOnce]
  cases hm : (env.fromList slabtype rev).2 <;> rfl

/-- A raising traversal is reported with an unrecoverable-list
finding. -/
theorem checkSlabsOnce_unrecoverable (env : SlabTravEnv) (cache : KmemCacheModel)
    (slabtype : SlabListTy) (nid : Int) (rev : Bool) (msg : String)
    (h : (env.fromList slabtype rev).2 = some msg) :
    SlabFinding.unrecoverable slabtype ∈ (checkSlabsOnce env cache slabtype nid rev).findings := by
  simp only [checkSlabsOnce, h]
  split_ifs <;> simp

/-- C3: a structural failure of the forward walk of a slab list or of
a zone free-area bucket is retried exactly once in reverse (the retry
notice appears exactly once when the forward walk fails and never
otherwise), and the failure is reported as a finding to the caller
(the unrecoverable-list finding for slab lists, the traversal-error
finding for zone buckets); the checkers are total functions, so the
corruption is never raised to the caller. -/
theorem c3_reverse_retry_once (slenv : SlabTravEnv) (cache : KmemCacheModel)
    (slabtype : SlabListTy) (snid : Int) (zenv : ZoneEnv) (cfg : PageConfig)
    (area : AreaData) (is_pcp : Bool) (order_cpu nid zid : Nat) :
    (slabRetryCount (checkSlabs slenv cache slabtype snid).2 slabtype =
      if ((slenv.fromList slabtype false).2).isSome = true then 1 else 0) ∧
    (∀ msg, (slenv.fromList slabtype false).2 = some msg →
      SlabFinding.unrecoverable slabtype ∈ (checkSlabs slenv cache slabtype snid).2) ∧
    (∀ mt, zRetryCount (checkFreeArea zenv cfg area is_pcp order_cpu nid zid).1 mt =
      if mt < area.numLists ∧ ((zenv.traverse mt false).2).isSome = true then 1 else 0) ∧
    (∀ mt msg, mt < area.numLists → (zenv.traverse mt false).2 = some msg →
      ZFinding.traverseError mt msg ∈
        (checkFreeArea zenv cfg area is_pcp order_cpu nid zid).1) := by
  have hok := checkSlabsOnce_ok slenv cache slabtype snid false
  rcases bucketFold_findings zenv cfg is_pcp order_cpu nid zid (List.range area.numLists)
    ([], 0) with ⟨new, heq, hkinds, hcnt, hmsg⟩
  refine ⟨?_, ?_, ?_, ?_⟩
  · cases hm : (slenv.fromList slabtype false).2 with
    | none =>
      rw [hm] at hok
      simp only [checkSlabs, slabRetryCount, hok]
      simp [checkSlabsOnce_countP_retry]
    | some msg =>
      rw [hm] at hok
      simp only [checkSlabs, slabRetryCount, hok]
      simp [List.countP_append, List.countP_singleton, checkSlabsOnce_countP_retry]
  · intro msg hm
    have hmem := checkSlabsOnce_unrecoverable slenv cache slabtype snid false msg hm
    rw [hm] at hok
    simp only [checkSlabs, hok]
    simp only [Option.isNone_some, Bool.false_eq_true, if_false]
    exact List.mem_append.mpr (Or.inl (List.mem_append.mpr (Or.inl hmem)))
  · intro mt
    have hsum := indicator_sum_nodup mt
      (fun a => ((zenv.traverse a false).2).isSome = true)
      (List.range area.numLists) (List.nodup_range _)
    have hcount : zRetryCount (checkFreeArea zenv cfg area is_pcp order_cpu nid zid).1 mt =
        new.countP (fun f => decide (f = ZFinding.retryReverse mt)) := by
      simp only [checkFreeArea, zRetryCount]
      split_ifs
      · rw [List.countP_append, heq]
        simp
      · rw [heq]
        simp
    rw [hcount, hcnt mt, hsum]
    simp [List.mem_range]
  · intro mt msg hmt hm
    have hin := hmsg mt msg (List.mem_range.mpr hmt) hm
    simp only [checkFreeArea]
    split_ifs with hif
    · rw [heq]
      simp [hin]
    · rw [heq]
      simp [hin]

/-- C3 witness: a slab list and a zone bucket whose forward walks
fail are each retried exactly once and the failures are reported. -/
theorem c3_reverse_retry_once_witness :
    slabRetryCount (checkSlabs slabTravEnvDemo cacheDemo .part 0).2 .part = 1 ∧
    SlabFinding.unrecoverable .part ∈ (checkSlabs slabTravEnvDemo cacheDemo .part 0).2 ∧
    zRetryCount (checkFreeArea zoneEnvDemo cfgDemo areaDemo false 2 0 0).1 0 = 1 ∧
    ZFinding.traverseError 0 "list cycle" ∈
      (checkFreeArea zoneEnvDemo cfgDemo areaDemo false 2 0 0).1 := by
  have h := c3_reverse_retry_once slabTravEnvDemo cacheDemo .part 0 zoneEnvDemo cfgDemo
    areaDemo false 2 0 0
  refine ⟨?_, h.2.1 "cycle" rfl, ?_, h.2.2.2 0 "list cycle" (by decide) rfl⟩
  · have h1 := h.1
    simpa [slabTravEnvDemo] using h1
  · have h1 := h.2.2.1 0
    simpa [zoneEnvDemo, areaDemo] using h1

/-- C9: a null alien-cache pointer aggregates nothing and produces no
finding, and an alien slot whose node equals the source node is
skipped silently: the aggregation over the node list equals the
aggregation over the node list with that node removed, so the slot
contributes no map entries and no findings. -/
theorem c9_alien_cache_null_and_same_node (env : AcEnv) (nids : List Nat)
    (slots : Nat → Option AcSlot) (nid_src : Int)
    (st : List (Nat × AcDict) × List AcFinding) :
    fillAlienCaches env nids none nid_src st = st ∧
    fillAlienCaches env nids (some slots) nid_src st =
      fillAlienCaches env (nids.filter (fun n => decide ((n : Int) ≠ nid_src)))
        (some slots) nid_src st := by
  refine ⟨rfl, ?_⟩
  induction nids generalizing st with
  | nil => rfl
  | cons a t ih =>
    simp only [fillAlienCaches, List.filter_cons, List.foldl_cons]
    by_cases ha : (a : Int) = nid_src
    · rw [if_neg (by simp [ha])]
      cases hsa : slots a with
      | none =>
        simpa only [fillAlienCaches, hsa] using ih st
      | some array =>
        dsimp only
        rw [if_pos ha.symm]
        simpa only [fillAlienCaches] using ih st
    · rw [if_pos (by simp [ha])]
      simp only [List.foldl_cons]
      cases hsa : slots a with
      | none =>
        simpa only [fillAlienCaches, hsa] using ih st
      | some array =>
        dsimp only
        rw [if_neg (fun h => ha h.symm)]
        simpa only [fillAlienCaches] using ih _

end CrashPython
